import Mathlib

/-!
Verification of the jarvis Obsidian filesystem adapter
(`core/types.py`, class `ObsidianFSAdapter`) against its
natural-language specification.

The Python code is shallowly embedded: strings stay strings, the
per-file state is the optional file content (`none` = the file does not
exist), fallible operations return `Except String` carrying the exact
Python exception message.  Python string primitives (`splitlines`,
`rstrip`, `lstrip`, `strip`, `startswith`, `Path.suffix`, ...) are
re-implemented below, faithful to CPython semantics on the character
sets the adapter manipulates (ASCII whitespace plus the universal
newline set).
-/

namespace Jarvis

/-- Characters treated as line boundaries by Python `str.splitlines`. -/
def isLineBreak (c : Char) : Bool :=
  c = '\n' || c = '\r' || c = '\x0b' || c = '\x0c' ||
  c = '\x1c' || c = '\x1d' || c = '\x1e' || c = '\x85' ||
  c = ' ' || c = ' '

/-- Characters stripped by Python `str.strip` / `rstrip` / `lstrip`
(no argument): the `str.isspace` set, restricted to the characters the
adapter can encounter (all line-break characters are included). -/
def pyIsSpace (c : Char) : Bool :=
  c = ' ' || c = '\t' || c = '\n' || c = '\r' || c = '\x0b' || c = '\x0c' ||
  c = '\x1c' || c = '\x1d' || c = '\x1e' || c = '\x1f' ||
  c = '\x85' || c = '\xa0' || c = ' ' ||
  (' ' ≤ c && c ≤ ' ') ||
  c = ' ' || c = ' ' || c = ' ' || c = ' ' || c = '　'

/-- Worker for `pySplitlines`: `acc` holds the current (reversed) line.
A `"\r\n"` pair counts as a single boundary; a final unterminated line
is emitted, a terminating boundary at end-of-string emits nothing more. -/
def splitlinesCore : List Char → List Char → List String
  | [], acc => if acc.isEmpty then [] else [String.mk acc.reverse]
  | [c], acc =>
      if isLineBreak c then [String.mk acc.reverse]
      else [String.mk ((c :: acc).reverse)]
  | c :: c' :: rest, acc =>
      if isLineBreak c then
        if c = '\r' && c' = '\n' then String.mk acc.reverse :: splitlinesCore rest []
        else String.mk acc.reverse :: splitlinesCore (c' :: rest) []
      else splitlinesCore (c' :: rest) (c :: acc)

/-- Python `str.splitlines()`. -/
def pySplitlines (s : String) : List String :=
  splitlinesCore s.data []

/-- Python `str.rstrip()` (strip trailing whitespace). -/
def pyRstrip (s : String) : String :=
  String.mk ((s.data.reverse.dropWhile pyIsSpace).reverse)

/-- Python `str.lstrip()` (strip leading whitespace). -/
def pyLstrip (s : String) : String :=
  String.mk (s.data.dropWhile pyIsSpace)

/-- Python `str.strip()` (strip both ends). -/
def pyStrip (s : String) : String :=
  pyLstrip (pyRstrip s)

/-- Python `str.lstrip("#")` (strip leading `#` characters). -/
def pyLstripHash (s : String) : String :=
  String.mk (s.data.dropWhile (fun c => c = '#'))

/-- `len(line) - len(line.lstrip("#"))`: the number of leading `#`
characters of the raw line (0 for an indented heading). -/
def leadingHashes (s : String) : Nat :=
  (s.data.takeWhile (fun c => c = '#')).length

/-- Python `sep.join(pieces)`. -/
def joinSep (sep : String) : List String → String
  | [] => ""
  | [l] => l
  | l :: l' :: rest => l ++ sep ++ joinSep sep (l' :: rest)

/-- Python `"\n".join(lines)`. -/
def joinN (lines : List String) : String :=
  joinSep "\n" lines

/-- Python `str.startswith(pre)`: the character list of `pre` is a
prefix of the character list of `s`. -/
def strStartsWith (s pre : String) : Bool :=
  List.isPrefixOf pre.data s.data

/-- Single-character lowercase mapping segments of Python `str.lower()`
(CPython 3.11, Unicode 14.0), extracted from the runtime: a tuple
`(lo, hi, step, delta)` maps every code point `n` with `lo <= n <= hi`
and `(n - lo) mod step = 0` to `n + delta`.  The only multi-character
lowercase mapping (U+0130) and the contextual capital sigma (U+03A3)
are handled separately in `pyLowerChar` and `pyLowerCore`. -/
def lowerSegs : List (Nat × Nat × Nat × Int) := [
    (65, 90, 1, 32), (192, 214, 1, 32), (216, 222, 1, 32),
    (256, 302, 2, 1), (306, 310, 2, 1), (313, 327, 2, 1),
    (330, 374, 2, 1), (376, 376, 1, -121), (377, 381, 2, 1),
    (385, 385, 1, 210), (386, 388, 2, 1), (390, 390, 1, 206),
    (391, 391, 1, 1), (393, 394, 1, 205), (395, 395, 1, 1),
    (398, 398, 1, 79), (399, 399, 1, 202), (400, 400, 1, 203),
    (401, 401, 1, 1), (403, 403, 1, 205), (404, 404, 1, 207),
    (406, 406, 1, 211), (407, 407, 1, 209), (408, 408, 1, 1),
    (412, 412, 1, 211), (413, 413, 1, 213), (415, 415, 1, 214),
    (416, 420, 2, 1), (422, 422, 1, 218), (423, 423, 1, 1),
    (425, 425, 1, 218), (428, 428, 1, 1), (430, 430, 1, 218),
    (431, 431, 1, 1), (433, 434, 1, 217), (435, 437, 2, 1),
    (439, 439, 1, 219), (440, 440, 1, 1), (444, 444, 1, 1),
    (452, 452, 1, 2), (453, 453, 1, 1), (455, 455, 1, 2),
    (456, 456, 1, 1), (458, 458, 1, 2), (459, 475, 2, 1),
    (478, 494, 2, 1), (497, 497, 1, 2), (498, 500, 2, 1),
    (502, 502, 1, -97), (503, 503, 1, -56), (504, 542, 2, 1),
    (544, 544, 1, -130), (546, 562, 2, 1), (570, 570, 1, 10795),
    (571, 571, 1, 1), (573, 573, 1, -163), (574, 574, 1, 10792),
    (577, 577, 1, 1), (579, 579, 1, -195), (580, 580, 1, 69),
    (581, 581, 1, 71), (582, 590, 2, 1), (880, 882, 2, 1),
    (886, 886, 1, 1), (895, 895, 1, 116), (902, 902, 1, 38),
    (904, 906, 1, 37), (908, 908, 1, 64), (910, 911, 1, 63),
    (913, 929, 1, 32), (931, 939, 1, 32), (975, 975, 1, 8),
    (984, 1006, 2, 1), (1012, 1012, 1, -60), (1015, 1015, 1, 1),
    (1017, 1017, 1, -7), (1018, 1018, 1, 1), (1021, 1023, 1, -130),
    (1024, 1039, 1, 80), (1040, 1071, 1, 32), (1120, 1152, 2, 1),
    (1162, 1214, 2, 1), (1216, 1216, 1, 15), (1217, 1229, 2, 1),
    (1232, 1326, 2, 1), (1329, 1366, 1, 48), (4256, 4293, 1, 7264),
    (4295, 4295, 1, 7264), (4301, 4301, 1, 7264), (5024, 5103, 1, 38864),
    (5104, 5109, 1, 8), (7312, 7354, 1, -3008), (7357, 7359, 1, -3008),
    (7680, 7828, 2, 1), (7838, 7838, 1, -7615), (7840, 7934, 2, 1),
    (7944, 7951, 1, -8), (7960, 7965, 1, -8), (7976, 7983, 1, -8),
    (7992, 7999, 1, -8), (8008, 8013, 1, -8), (8025, 8031, 2, -8),
    (8040, 8047, 1, -8), (8072, 8079, 1, -8), (8088, 8095, 1, -8),
    (8104, 8111, 1, -8), (8120, 8121, 1, -8), (8122, 8123, 1, -74),
    (8124, 8124, 1, -9), (8136, 8139, 1, -86), (8140, 8140, 1, -9),
    (8152, 8153, 1, -8), (8154, 8155, 1, -100), (8168, 8169, 1, -8),
    (8170, 8171, 1, -112), (8172, 8172, 1, -7), (8184, 8185, 1, -128),
    (8186, 8187, 1, -126), (8188, 8188, 1, -9), (8486, 8486, 1, -7517),
    (8490, 8490, 1, -8383), (8491, 8491, 1, -8262), (8498, 8498, 1, 28),
    (8544, 8559, 1, 16), (8579, 8579, 1, 1), (9398, 9423, 1, 26),
    (11264, 11311, 1, 48), (11360, 11360, 1, 1), (11362, 11362, 1, -10743),
    (11363, 11363, 1, -3814), (11364, 11364, 1, -10727), (11367, 11371, 2, 1),
    (11373, 11373, 1, -10780), (11374, 11374, 1, -10749), (11375, 11375, 1, -10783),
    (11376, 11376, 1, -10782), (11378, 11378, 1, 1), (11381, 11381, 1, 1),
    (11390, 11391, 1, -10815), (11392, 11490, 2, 1), (11499, 11501, 2, 1),
    (11506, 11506, 1, 1), (42560, 42604, 2, 1), (42624, 42650, 2, 1),
    (42786, 42798, 2, 1), (42802, 42862, 2, 1), (42873, 42875, 2, 1),
    (42877, 42877, 1, -35332), (42878, 42886, 2, 1), (42891, 42891, 1, 1),
    (42893, 42893, 1, -42280), (42896, 42898, 2, 1), (42902, 42920, 2, 1),
    (42922, 42922, 1, -42308), (42923, 42923, 1, -42319), (42924, 42924, 1, -42315),
    (42925, 42925, 1, -42305), (42926, 42926, 1, -42308), (42928, 42928, 1, -42258),
    (42929, 42929, 1, -42282), (42930, 42930, 1, -42261), (42931, 42931, 1, 928),
    (42932, 42946, 2, 1), (42948, 42948, 1, -48), (42949, 42949, 1, -42307),
    (42950, 42950, 1, -35384), (42951, 42953, 2, 1), (42960, 42960, 1, 1),
    (42966, 42968, 2, 1), (42997, 42997, 1, 1), (65313, 65338, 1, 32),
    (66560, 66599, 1, 40), (66736, 66771, 1, 40), (66928, 66938, 1, 39),
    (66940, 66954, 1, 39), (66956, 66962, 1, 39), (66964, 66965, 1, 39),
    (68736, 68786, 1, 64), (71840, 71871, 1, 32), (93760, 93791, 1, 32),
    (125184, 125217, 1, 34)]

/-- Look up the lowercase delta of a code point in `lowerSegs`. -/
def segDelta (n : Nat) : List (Nat × Nat × Nat × Int) → Option Int
  | [] => none
  | (lo, hi, st, d) :: rest =>
      if lo ≤ n ∧ n ≤ hi ∧ (n - lo) % st = 0 then some d else segDelta n rest

/-- Python `str.lower()` of one character, except the contextual
capital sigma: the simple mapping from `lowerSegs`, plus the one
multi-character mapping U+0130 → U+0069 U+0307. -/
def pyLowerChar (c : Char) : List Char :=
  if c.toNat = 304 then [Char.ofNat 105, Char.ofNat 775]
  else
    match segDelta c.toNat lowerSegs with
    | some d => [Char.ofNat (((c.toNat : Int) + d).toNat)]
    | none => [c]

/-- Membership of a code point in a list of inclusive ranges. -/
def inRanges (n : Nat) : List (Nat × Nat) → Bool
  | [] => false
  | (lo, hi) :: rest => if lo ≤ n ∧ n ≤ hi then true else inRanges n rest

/-- The Case_Ignorable code points, as consulted by CPython's
capital-sigma context scan (extracted from the runtime's behaviour). -/
def caseIgnorableRanges : List (Nat × Nat) := [
    (39, 39), (46, 46), (58, 58), (94, 94), (96, 96), (168, 168),
    (173, 173), (175, 175), (180, 180), (183, 184), (688, 879), (884, 885),
    (890, 890), (900, 901), (903, 903), (931, 931), (962, 962), (1155, 1161),
    (1369, 1369), (1375, 1375), (1425, 1469), (1471, 1471), (1473, 1474), (1476, 1477),
    (1479, 1479), (1524, 1524), (1536, 1541), (1552, 1562), (1564, 1564), (1600, 1600),
    (1611, 1631), (1648, 1648), (1750, 1757), (1759, 1768), (1770, 1773), (1807, 1807),
    (1809, 1809), (1840, 1866), (1958, 1968), (2027, 2037), (2042, 2042), (2045, 2045),
    (2070, 2093), (2137, 2139), (2184, 2184), (2192, 2193), (2200, 2207), (2249, 2306),
    (2362, 2362), (2364, 2364), (2369, 2376), (2381, 2381), (2385, 2391), (2402, 2403),
    (2417, 2417), (2433, 2433), (2492, 2492), (2497, 2500), (2509, 2509), (2530, 2531),
    (2558, 2558), (2561, 2562), (2620, 2620), (2625, 2626), (2631, 2632), (2635, 2637),
    (2641, 2641), (2672, 2673), (2677, 2677), (2689, 2690), (2748, 2748), (2753, 2757),
    (2759, 2760), (2765, 2765), (2786, 2787), (2810, 2815), (2817, 2817), (2876, 2876),
    (2879, 2879), (2881, 2884), (2893, 2893), (2901, 2902), (2914, 2915), (2946, 2946),
    (3008, 3008), (3021, 3021), (3072, 3072), (3076, 3076), (3132, 3132), (3134, 3136),
    (3142, 3144), (3146, 3149), (3157, 3158), (3170, 3171), (3201, 3201), (3260, 3260),
    (3263, 3263), (3270, 3270), (3276, 3277), (3298, 3299), (3328, 3329), (3387, 3388),
    (3393, 3396), (3405, 3405), (3426, 3427), (3457, 3457), (3530, 3530), (3538, 3540),
    (3542, 3542), (3633, 3633), (3636, 3642), (3654, 3662), (3761, 3761), (3764, 3772),
    (3782, 3782), (3784, 3789), (3864, 3865), (3893, 3893), (3895, 3895), (3897, 3897),
    (3953, 3966), (3968, 3972), (3974, 3975), (3981, 3991), (3993, 4028), (4038, 4038),
    (4141, 4144), (4146, 4151), (4153, 4154), (4157, 4158), (4184, 4185), (4190, 4192),
    (4209, 4212), (4226, 4226), (4229, 4230), (4237, 4237), (4253, 4253), (4348, 4348),
    (4957, 4959), (5906, 5908), (5938, 5939), (5970, 5971), (6002, 6003), (6068, 6069),
    (6071, 6077), (6086, 6086), (6089, 6099), (6103, 6103), (6109, 6109), (6155, 6159),
    (6211, 6211), (6277, 6278), (6313, 6313), (6432, 6434), (6439, 6440), (6450, 6450),
    (6457, 6459), (6679, 6680), (6683, 6683), (6742, 6742), (6744, 6750), (6752, 6752),
    (6754, 6754), (6757, 6764), (6771, 6780), (6783, 6783), (6823, 6823), (6832, 6862),
    (6912, 6915), (6964, 6964), (6966, 6970), (6972, 6972), (6978, 6978), (7019, 7027),
    (7040, 7041), (7074, 7077), (7080, 7081), (7083, 7085), (7142, 7142), (7144, 7145),
    (7149, 7149), (7151, 7153), (7212, 7219), (7222, 7223), (7288, 7293), (7376, 7378),
    (7380, 7392), (7394, 7400), (7405, 7405), (7412, 7412), (7416, 7417), (7468, 7530),
    (7544, 7544), (7579, 7679), (8125, 8125), (8127, 8129), (8141, 8143), (8157, 8159),
    (8173, 8175), (8189, 8190), (8203, 8207), (8216, 8217), (8228, 8228), (8231, 8231),
    (8234, 8238), (8288, 8292), (8294, 8303), (8305, 8305), (8319, 8319), (8336, 8348),
    (8400, 8432), (11388, 11389), (11503, 11505), (11631, 11631), (11647, 11647), (11744, 11775),
    (11823, 11823), (12293, 12293), (12330, 12333), (12337, 12341), (12347, 12347), (12441, 12446),
    (12540, 12542), (40981, 40981), (42232, 42237), (42508, 42508), (42607, 42610), (42612, 42621),
    (42623, 42623), (42652, 42655), (42736, 42737), (42752, 42785), (42864, 42864), (42888, 42890),
    (42994, 42996), (43000, 43001), (43010, 43010), (43014, 43014), (43019, 43019), (43045, 43046),
    (43052, 43052), (43204, 43205), (43232, 43249), (43263, 43263), (43302, 43309), (43335, 43345),
    (43392, 43394), (43443, 43443), (43446, 43449), (43452, 43453), (43471, 43471), (43493, 43494),
    (43561, 43566), (43569, 43570), (43573, 43574), (43587, 43587), (43596, 43596), (43632, 43632),
    (43644, 43644), (43696, 43696), (43698, 43700), (43703, 43704), (43710, 43711), (43713, 43713),
    (43741, 43741), (43756, 43757), (43763, 43764), (43766, 43766), (43867, 43871), (43881, 43883),
    (44005, 44005), (44008, 44008), (44013, 44013), (64286, 64286), (64434, 64450), (65024, 65039),
    (65043, 65043), (65056, 65071), (65106, 65106), (65109, 65109), (65279, 65279), (65287, 65287),
    (65294, 65294), (65306, 65306), (65342, 65342), (65344, 65344), (65392, 65392), (65438, 65439),
    (65507, 65507), (65529, 65531), (66045, 66045), (66272, 66272), (66422, 66426), (67456, 67461),
    (67463, 67504), (67506, 67514), (68097, 68099), (68101, 68102), (68108, 68111), (68152, 68154),
    (68159, 68159), (68325, 68326), (68900, 68903), (69291, 69292), (69446, 69456), (69506, 69509),
    (69633, 69633), (69688, 69702), (69744, 69744), (69747, 69748), (69759, 69761), (69811, 69814),
    (69817, 69818), (69821, 69821), (69826, 69826), (69837, 69837), (69888, 69890), (69927, 69931),
    (69933, 69940), (70003, 70003), (70016, 70017), (70070, 70078), (70089, 70092), (70095, 70095),
    (70191, 70193), (70196, 70196), (70198, 70199), (70206, 70206), (70367, 70367), (70371, 70378),
    (70400, 70401), (70459, 70460), (70464, 70464), (70502, 70508), (70512, 70516), (70712, 70719),
    (70722, 70724), (70726, 70726), (70750, 70750), (70835, 70840), (70842, 70842), (70847, 70848),
    (70850, 70851), (71090, 71093), (71100, 71101), (71103, 71104), (71132, 71133), (71219, 71226),
    (71229, 71229), (71231, 71232), (71339, 71339), (71341, 71341), (71344, 71349), (71351, 71351),
    (71453, 71455), (71458, 71461), (71463, 71467), (71727, 71735), (71737, 71738), (71995, 71996),
    (71998, 71998), (72003, 72003), (72148, 72151), (72154, 72155), (72160, 72160), (72193, 72202),
    (72243, 72248), (72251, 72254), (72263, 72263), (72273, 72278), (72281, 72283), (72330, 72342),
    (72344, 72345), (72752, 72758), (72760, 72765), (72767, 72767), (72850, 72871), (72874, 72880),
    (72882, 72883), (72885, 72886), (73009, 73014), (73018, 73018), (73020, 73021), (73023, 73029),
    (73031, 73031), (73104, 73105), (73109, 73109), (73111, 73111), (73459, 73460), (78896, 78904),
    (92912, 92916), (92976, 92982), (92992, 92995), (94031, 94031), (94095, 94111), (94176, 94177),
    (94179, 94180), (110576, 110579), (110581, 110587), (110589, 110590), (113821, 113822), (113824, 113827),
    (118528, 118573), (118576, 118598), (119143, 119145), (119155, 119170), (119173, 119179), (119210, 119213),
    (119362, 119364), (121344, 121398), (121403, 121452), (121461, 121461), (121476, 121476), (121499, 121503),
    (121505, 121519), (122880, 122886), (122888, 122904), (122907, 122913), (122915, 122916), (122918, 122922),
    (123184, 123197), (123566, 123566), (123628, 123631), (125136, 125142), (125252, 125259), (127995, 127999),
    (917505, 917505), (917536, 917631), (917760, 917999)]

/-- The Cased code points restricted to non-Case_Ignorable characters
— the only ones CPython's capital-sigma context scan consults
(extracted from the runtime's behaviour). -/
def casedRanges : List (Nat × Nat) := [
    (65, 90), (97, 122), (170, 170), (181, 181), (186, 186), (192, 214),
    (216, 246), (248, 442), (444, 447), (452, 659), (661, 687), (880, 883),
    (886, 887), (891, 893), (895, 895), (902, 902), (904, 906), (908, 908),
    (910, 929), (932, 961), (963, 1013), (1015, 1153), (1162, 1327), (1329, 1366),
    (1376, 1416), (4256, 4293), (4295, 4295), (4301, 4301), (4304, 4346), (4349, 4351),
    (5024, 5109), (5112, 5117), (7296, 7304), (7312, 7354), (7357, 7359), (7424, 7467),
    (7531, 7543), (7545, 7578), (7680, 7957), (7960, 7965), (7968, 8005), (8008, 8013),
    (8016, 8023), (8025, 8025), (8027, 8027), (8029, 8029), (8031, 8061), (8064, 8116),
    (8118, 8124), (8126, 8126), (8130, 8132), (8134, 8140), (8144, 8147), (8150, 8155),
    (8160, 8172), (8178, 8180), (8182, 8188), (8450, 8450), (8455, 8455), (8458, 8467),
    (8469, 8469), (8473, 8477), (8484, 8484), (8486, 8486), (8488, 8488), (8490, 8493),
    (8495, 8500), (8505, 8505), (8508, 8511), (8517, 8521), (8526, 8526), (8544, 8575),
    (8579, 8580), (9398, 9449), (11264, 11387), (11390, 11492), (11499, 11502), (11506, 11507),
    (11520, 11557), (11559, 11559), (11565, 11565), (42560, 42605), (42624, 42651), (42786, 42863),
    (42865, 42887), (42891, 42894), (42896, 42954), (42960, 42961), (42963, 42963), (42965, 42969),
    (42997, 42998), (43002, 43002), (43824, 43866), (43872, 43880), (43888, 43967), (64256, 64262),
    (64275, 64279), (65313, 65338), (65345, 65370), (66560, 66639), (66736, 66771), (66776, 66811),
    (66928, 66938), (66940, 66954), (66956, 66962), (66964, 66965), (66967, 66977), (66979, 66993),
    (66995, 67001), (67003, 67004), (68736, 68786), (68800, 68850), (71840, 71903), (93760, 93823),
    (119808, 119892), (119894, 119964), (119966, 119967), (119970, 119970), (119973, 119974), (119977, 119980),
    (119982, 119993), (119995, 119995), (119997, 120003), (120005, 120069), (120071, 120074), (120077, 120084),
    (120086, 120092), (120094, 120121), (120123, 120126), (120128, 120132), (120134, 120134), (120138, 120144),
    (120146, 120485), (120488, 120512), (120514, 120538), (120540, 120570), (120572, 120596), (120598, 120628),
    (120630, 120654), (120656, 120686), (120688, 120712), (120714, 120744), (120746, 120770), (120772, 120779),
    (122624, 122633), (122635, 122654), (125184, 125251), (127280, 127305), (127312, 127337), (127344, 127369)]

def isCaseIgnorable (c : Char) : Bool :=
  inRanges c.toNat caseIgnorableRanges

def isCasedChar (c : Char) : Bool :=
  inRanges c.toNat casedRanges

/-- CPython `handle_capital_sigma`: U+03A3 lowercases to the final
sigma U+03C2 when the nearest non-case-ignorable character before it
exists and is cased, and the nearest non-case-ignorable character
after it is absent or not cased.  `before` holds the preceding
characters in reverse order. -/
def finalSigma (before after : List Char) : Bool :=
  (match before.dropWhile isCaseIgnorable with
   | c :: _ => isCasedChar c
   | [] => false) &&
  (match after.dropWhile isCaseIgnorable with
   | c :: _ => !(isCasedChar c)
   | [] => true)

/-- The character loop of CPython `do_lower`: each capital sigma
(U+03A3) is lowered contextually, every other character through
`pyLowerChar`. -/
def pyLowerCore : List Char → List Char → List Char
  | [], _ => []
  | c :: rest, before =>
      (if c.toNat = 931 then
        [if finalSigma before rest then Char.ofNat 962 else Char.ofNat 963]
       else pyLowerChar c) ++ pyLowerCore rest (c :: before)

/-- Python `str.lower()`. -/
def pyToLower (s : String) : String :=
  String.mk (pyLowerCore s.data [])

/-- True when the string contains no line-boundary character (every
piece produced by `pySplitlines` satisfies this). -/
def noLB (s : String) : Bool :=
  s.data.all (fun c => !(isLineBreak c))

/-!  Path resolver (`ObsidianFSAdapter._safe_path`).

A POSIX path is modelled as its string; `pathlib.Path` component
splitting drops empty components and `"."` components.  The vault root
(`self.vault`, already `resolve()`d at construction) is given as its
component list; its rendered string is `renderAbs`.  `resolve()` on a
path with no symlinks normalises `".."` lexically, clamped at `/`. -/

/-- Python `str.split(sep)` for a single-character separator, over the
character list (components between separator occurrences, empties
kept). -/
def splitChar (sep : Char) : List Char → List Char → List String
  | [], acc => [String.mk acc.reverse]
  | c :: rest, acc =>
      if c = sep then String.mk acc.reverse :: splitChar sep rest []
      else splitChar sep rest (c :: acc)

/-- `pathlib.PurePosixPath.parts` for a relative path: split on `/`,
dropping empty and `"."` components. -/
def pathParts (s : String) : List String :=
  (splitChar '/' s.data []).filter (fun p => p != "" && p != ".")

/-- `pathlib.PurePosixPath.name`: the final component (empty for an
empty path). -/
def pyName (s : String) : String :=
  (pathParts s).getLast?.getD ""

/-- Index of the last occurrence of `c` in `l` (`str.rfind`). -/
def rfindChar (l : List Char) (c : Char) : Option Nat :=
  match l.reverse.findIdx? (fun x => x = c) with
  | some k => some (l.length - 1 - k)
  | none => none

/-- `pathlib.PurePath.suffix` of a file name: the part from the last
dot, provided that dot is neither the first nor the last character. -/
def pySuffix (name : String) : String :=
  match rfindChar name.data '.' with
  | some i => if 0 < i ∧ i < name.length - 1 then String.mk (name.data.drop i) else ""
  | none => ""

/-- `pathlib.PurePosixPath.is_absolute()`. -/
def pyIsAbs (s : String) : Bool :=
  strStartsWith s "/"

/-- Lexical normalisation performed by `Path.resolve()` in the absence
of symlinks: process components left to right, `".."` pops the stack
(staying at the filesystem root when the stack is empty). -/
def resolveStack (parts : List String) : List String :=
  parts.foldl (fun acc p => if p = ".." then acc.dropLast else acc ++ [p]) []

/-- `str(path)` for an absolute path given by its component list. -/
def renderAbs (parts : List String) : String :=
  "/" ++ joinSep "/" parts

/-- `ObsidianFSAdapter._safe_path`: reject absolute paths, require the
`.md` suffix (case-insensitive), resolve under the vault root and
reject when `str(full).startswith(str(self.vault))` fails.  Returns the
resolved component list of the target file.  (The `mkdir` side effect
touches no file content.) -/
def safePath (vault : List String) (rel : String) : Except String (List String) :=
  if pyIsAbs rel then
    .error "path must be vault-relative, not absolute"
  else if pyToLower (pySuffix (pyName rel)) ≠ ".md" then
    .error "path must end with .md"
  else
    let full := resolveStack (vault ++ pathParts rel)
    if strStartsWith (renderAbs full) (renderAbs vault) then .ok full
    else .error "path escapes vault root"

/-!  Document mutation engine.

The state of the single file an operation targets is `Option String`
(`none` = file does not exist, matching `Path.exists()`), its content
otherwise.  `_read_lines` / `_write_lines` are modelled exactly:
reading splits the text into lines, writing joins with `"\n"`, strips
trailing whitespace of the joined text and appends one newline. -/

/-- `ObsidianFSAdapter._read_lines`: `[]` when the file does not
exist, `read_text().splitlines()` otherwise. -/
def readLines : Option String → List String
  | none => []
  | some s => pySplitlines s

/-- `ObsidianFSAdapter._write_lines`: the content written is
`"\n".join(lines).rstrip() + "\n"`. -/
def writeLines (lines : List String) : String :=
  pyRstrip (joinN lines) ++ "\n"

/-- `ObsidianFSAdapter._normalize_heading`:
`h.strip().lstrip("#").strip().lower()`. -/
def normalizeHeading (h : String) : String :=
  pyToLower (pyStrip (pyLstripHash (pyStrip h)))

/-- The loop body test of `_find_heading_index`: the line is a heading
(`line.lstrip().startswith("#")`) whose normalisation equals the
normalised target. -/
def headingMatches (target line : String) : Bool :=
  strStartsWith (pyLstrip line) "#" && normalizeHeading line == target

/-- The `for i, line in enumerate(lines)` loop of
`_find_heading_index`, carrying the running index. -/
def findHeadingIndexAux (target : String) : List String → Nat → Option Nat
  | [], _ => none
  | l :: rest, i =>
      if headingMatches target l then some i
      else findHeadingIndexAux target rest (i + 1)

/-- `ObsidianFSAdapter._find_heading_index`. -/
def findHeadingIndex (lines : List String) (heading : String) : Option Nat :=
  findHeadingIndexAux (normalizeHeading heading) lines 0

/-- The boundary test of `_scan_to_section_end`: a heading line whose
level (count of leading `#` of the raw line) is at most `base`. -/
def isBoundaryLine (line : String) (base : Nat) : Bool :=
  strStartsWith (pyLstrip line) "#" && decide (leadingHashes line ≤ base)

/-- The `while j < len(lines)` loop of `_scan_to_section_end`: `rest`
is `lines[j:]`; returns the final value of `j` (the first index at or
after the start holding a boundary heading, or `len(lines)`). -/
def scanJAux (base : Nat) : List String → Nat → Nat
  | [], j => j
  | l :: rest, j =>
      if isBoundaryLine l base then j
      else scanJAux base rest (j + 1)

/-- `ObsidianFSAdapter._scan_to_section_end`: returns the (possibly
blank-augmented) line list together with the insertion index.
`lines.insert(j, "")` is `lines[:j] ++ [""] ++ lines[j:]`. -/
def scanToSectionEnd (lines : List String) (headingIdx : Nat) : List String × Nat :=
  let base := leadingHashes (lines.getD headingIdx "")
  let j := scanJAux base (lines.drop (headingIdx + 1)) (headingIdx + 1)
  if j = headingIdx + 1 ∨ (j < lines.length ∧ pyStrip (lines.getD (j - 1) "") ≠ "") then
    (lines.take j ++ [""] ++ lines.drop j, j + 1)
  else
    (lines, j)

/-- `ObsidianFSAdapter.note_create` up to the final `_write_lines`:
errors when the file exists, otherwise builds the line list
(`# <title>` plus a blank line first, when `title` is truthy and the
body does not already start with a heading marker). -/
def noteCreateLines (path title body : String) (old : Option String) :
    Except String (List String) :=
  match old with
  | some _ => .error ("note already exists: " ++ path)
  | none =>
      let pre := if title ≠ "" ∧ ¬ strStartsWith (pyLstrip body) "#" then
        ["# " ++ title, ""] else []
      .ok (pre ++ pySplitlines body)

/-- `ObsidianFSAdapter.note_update` up to the final `_write_lines`. -/
def noteUpdateLines (body : String) (_old : Option String) :
    Except String (List String) :=
  .ok (pySplitlines body)

/-- `ObsidianFSAdapter.note_append` up to the final `_write_lines`.
`heading = none` models Python `heading=None`; `if not heading` is
true for `None` and for the empty string. -/
def noteAppendLines (body position : String) (heading : Option String)
    (old : Option String) : Except String (List String) :=
  let lines := readLines old
  let snippet := pySplitlines body
  if position = "top" then
    .ok (if lines ≠ [] then snippet ++ [""] ++ lines else snippet ++ [""])
  else if position = "after_heading" then
    if heading.getD "" = "" then
      .error "heading is required when position=after_heading"
    else
      let h := heading.getD ""
      match findHeadingIndex lines h with
      | some idx =>
          let scanned := scanToSectionEnd lines idx
          .ok (scanned.1.take scanned.2 ++ snippet ++ [""] ++ scanned.1.drop scanned.2)
      | none =>
          let lines2 :=
            (if lines ≠ [] ∧ lines.getLast? ≠ some "" then lines ++ [""] else lines) ++
            ["# " ++ h, ""]
          let idx := lines2.length - 1
          let scanned := scanToSectionEnd lines2 idx
          .ok (scanned.1.take scanned.2 ++ snippet ++ [""] ++ scanned.1.drop scanned.2)
  else
    .ok ((if lines ≠ [] ∧ lines.getLast? ≠ some "" then lines ++ [""] else lines) ++
         snippet ++ [""])

/-- `ObsidianFSAdapter.task_create` up to the final `_write_lines`:
builds `- [ ] <task_text>`, optionally appends the due annotation and
the space-joined `#tag` annotations (`if due:` / `if tags:` are Python
truthiness: absent, empty string and empty list are falsy), ensures a
blank separator when the file is non-empty, appends the line. -/
def taskCreateLines (text : String) (due : Option String)
    (tags : Option (List String)) (old : Option String) :
    Except String (List String) :=
  let lines := readLines old
  let t1 := "- [ ] " ++ text
  let t2 := match due with
    | some d => if d ≠ "" then t1 ++ " ⏰ " ++ d else t1
    | none => t1
  let t3 := match tags with
    | some ts =>
        if ts ≠ [] then t2 ++ " " ++ joinSep " " (ts.map (fun t => "#" ++ t)) else t2
    | none => t2
  .ok ((if lines ≠ [] ∧ lines.getLast? ≠ some "" then lines ++ [""] else lines) ++ [t3])

/-- The `for i, line in enumerate(lines)` loop of `task_toggle`:
returns the index of the first line whose stripped form equals the
open target (when toggling to done) or the done target (when toggling
to open), together with the replacement line. -/
def toggleFindAux (opn don state : String) : List String → Nat → Option (Nat × String)
  | [], _ => none
  | l :: rest, i =>
      if pyStrip l = opn ∧ state = "done" then some (i, don)
      else if pyStrip l = don ∧ state = "open" then some (i, opn)
      else toggleFindAux opn don state rest (i + 1)

/-- `ObsidianFSAdapter.task_toggle` up to the final `_write_lines`:
`task_text` is required (`None` and `""` are falsy), an empty line
list fails, an absent match fails; otherwise the matched line is
replaced in place. -/
def taskToggleLines (state : String) (text : Option String) (old : Option String) :
    Except String (List String) :=
  if text.getD "" = "" then
    .error "task_text is required for task.toggle in filesystem adapter"
  else
    let t := text.getD ""
    let lines := readLines old
    if lines = [] then .error "file not found or empty"
    else
      match toggleFindAux ("- [ ] " ++ t) ("- [x] " ++ t) state lines 0 with
      | some found => .ok (lines.set found.1 found.2)
      | none => .error "matching task not found to toggle"

/-- The five mutation operations of the adapter with their payload
arguments (path excluded; it is passed separately). -/
inductive MutOp where
  | create (title body : String)
  | update (body : String)
  | append (body position : String) (heading : Option String)
  | taskCreate (text : String) (due : Option String) (tags : Option (List String))
  | taskToggle (state : String) (text : Option String)

/-- Dispatch an operation to its line-level implementation.  `path` is
only used in the already-exists error message of `note_create`. -/
def contentOp : MutOp → String → Option String → Except String (List String)
  | .create title body, path, old => noteCreateLines path title body old
  | .update body, _, old => noteUpdateLines body old
  | .append body position heading, _, old => noteAppendLines body position heading old
  | .taskCreate text due tags, _, old => taskCreateLines text due tags old
  | .taskToggle state text, _, old => taskToggleLines state text old

/-- A mutation operation after path resolution: compute the new line
sequence, then write it through `_write_lines`.  An `error` result
means the operation raised before reaching the write step, so the file
content is unchanged. -/
def runOp (op : MutOp) (path : String) (old : Option String) : Except String String :=
  (contentOp op path old).map writeLines

/-- The full operation as exposed by the adapter: `_safe_path` runs
before the mutation itself, with one exception mirrored from the code:
`task_toggle` validates `task_text` BEFORE calling `_safe_path`, so a
toggle with a missing or empty text raises the task-text error even on
an absolute, wrong-suffix or escaping path.  An `error` result means
no file is written. -/
def fullOp (op : MutOp) (vault : List String) (rel : String) (old : Option String) :
    Except String String :=
  match op with
  | .taskToggle _ text =>
      if text.getD "" = "" then
        .error "task_text is required for task.toggle in filesystem adapter"
      else (safePath vault rel).bind (fun _ => runOp op rel old)
  | _ => (safePath vault rel).bind (fun _ => runOp op rel old)

/-!  Command validation layer.

`ObsidianCommand` is imported by `app.py` and the smoke test from
`core.types`, but its definition is not part of the sources available
here; it is modelled from the spec (sections 3 and 4.1). -/

/-- Modelled from the spec: the closed `Action` enumeration of
`ObsidianCommand` (`note.create`, `note.append`, `note.update`,
`task.create`, `task.toggle`); the pydantic model itself is missing
from the sources. -/
inductive Action where
  | noteCreate
  | noteAppend
  | noteUpdate
  | taskCreate
  | taskToggle
deriving DecidableEq

/-- Modelled from the spec: the sparse optional-field payload record
of `ObsidianCommand` (fields in order: `path`, `heading`, `position`,
`title`, `body_md`, `task_text`, `task_state`); the pydantic model
itself is missing from the sources. -/
structure VPayload where
  path : Option String
  heading : Option String
  position : Option String
  title : Option String
  body_md : Option String
  task_text : Option String
  task_state : Option String
deriving DecidableEq

/-- A field is present when it is supplied and non-empty. -/
def present : Option String → Bool
  | some s => s ≠ ""
  | none => false

/-- Modelled from the spec: the per-action required-field matrix of
section 3 — every action requires `path`; `note.create` also `title`
and `body_md`; `note.append` also `body_md` (plus `heading` when
`position = after_heading`); `note.update` also `body_md`;
`task.create` also `task_text`; `task.toggle` also `task_state`.
Returns the names of all missing required fields, in matrix order. -/
def missingFields (a : Action) (p : VPayload) : List String :=
  (if present p.path then [] else ["path"]) ++
  (match a with
   | .noteCreate =>
       (if present p.title then [] else ["title"]) ++
       (if present p.body_md then [] else ["body_md"])
   | .noteAppend =>
       (if present p.body_md then [] else ["body_md"]) ++
       (if p.position = some "after_heading" ∧ ¬ present p.heading then ["heading"] else [])
   | .noteUpdate => if present p.body_md then [] else ["body_md"]
   | .taskCreate => if present p.task_text then [] else ["task_text"]
   | .taskToggle => if present p.task_state then [] else ["task_state"])

/-- Modelled from the spec: invalid-value checks of sections 3 and 4.1
— a present `path` must end in the Markdown suffix (case-insensitive),
a present `position` must be a member of the Position enumeration, a
present `task_state` must be a member of the TaskState enumeration.
Returns the names of all invalid fields. -/
def invalidFields (p : VPayload) : List String :=
  (match p.path with
   | some s => if s ≠ "" ∧ pyToLower (pySuffix (pyName s)) ≠ ".md" then ["path"] else []
   | none => []) ++
  (match p.position with
   | some s => if s ≠ "top" ∧ s ≠ "bottom" ∧ s ≠ "after_heading" then ["position"] else []
   | none => []) ++
  (match p.task_state with
   | some s => if s ≠ "" ∧ s ≠ "open" ∧ s ≠ "done" then ["task_state"] else []
   | none => [])

/-- Modelled from the spec: a validated command — an action together
with a payload that passed validation.  An invalid instance is never
constructed. -/
structure ObsidianCommand where
  action : Action
  payload : VPayload

/-- Modelled from the spec: all-or-nothing validation — collect every
missing required field and every invalid field; construct the command
only when there is none, otherwise fail with the complete list. -/
def validateCommand (a : Action) (p : VPayload) : Except (List String) ObsidianCommand :=
  let errs := missingFields a p ++ invalidFields p
  if errs = [] then .ok ⟨a, p⟩ else .error errs

/-- The last line of a line list (empty string when there is none). -/
def lastLine (L : List String) : String :=
  (L.getLast?).getD ""

/-- A line list whose final line survives the trailing `rstrip` of
`_write_lines` unchanged: it exists, is non-empty and carries no
trailing whitespace.  Every line list produced by reading back a file
that `_write_lines` wrote (other than the empty document) satisfies
this. -/
def goodLast (L : List String) : Prop :=
  lastLine L ≠ "" ∧ pyRstrip (lastLine L) = lastLine L

instance (L : List String) : Decidable (goodLast L) := by
  unfold goodLast
  infer_instance

/-!  Helper lemmas: lists. -/

theorem getD_drop {α : Type} (l : List α) (k m : Nat) (d : α) :
    (l.drop k).getD m d = l.getD (k + m) d := by
  induction l generalizing k with
  | nil => simp
  | cons a l ih =>
      cases k with
      | zero => simp
      | succ k => simpa [Nat.succ_add] using ih k

theorem getLast?_append_right {α : Type} (A B : List α) (h : B ≠ []) :
    (A ++ B).getLast? = B.getLast? :=
  List.getLast?_append_of_ne_nil A h

theorem set_append_len {α : Type} (A : List α) (y r : α) (t : List α) :
    (A ++ y :: t).set A.length r = A ++ r :: t := by
  induction A with
  | nil => rfl
  | cons a A ih => simpa using ih

theorem lastLine_append (A B : List String) (h : B ≠ []) :
    lastLine (A ++ B) = lastLine B := by
  unfold lastLine
  rw [getLast?_append_right A B h]

/-!  Helper lemmas: strings as character lists. -/

theorem string_data_append (a b : String) : (a ++ b).data = a.data ++ b.data := rfl

theorem string_mk_data (s : String) : String.mk s.data = s := rfl

theorem data_mk (l : List Char) : (String.mk l).data = l := rfl

theorem string_ext_data {a b : String} (h : a.data = b.data) : a = b := by
  cases a; cases b; exact congrArg String.mk h

/-!  Helper lemmas: `pyRstrip`. -/

theorem pyRstrip_data (s : String) :
    (pyRstrip s).data = (s.data.reverse.dropWhile pyIsSpace).reverse := rfl

theorem dropWhile_cons_of_neg {α : Type} (p : α → Bool) (c : α) (r : List α)
    (h : p c = false) : List.dropWhile p (c :: r) = c :: r := by
  simp [List.dropWhile, h]

theorem length_dropWhile_le_self {α : Type} (p : α → Bool) (l : List α) :
    (List.dropWhile p l).length ≤ l.length := by
  induction l with
  | nil => exact Nat.le_refl 0
  | cons a l ih =>
      by_cases h : p a = true
      · rw [List.dropWhile_cons_of_pos h]
        exact Nat.le_succ_of_le ih
      · rw [List.dropWhile_cons_of_neg h]

theorem dropWhile_self {α : Type} (p : α → Bool) (l : List α) :
    List.dropWhile p (List.dropWhile p l) = List.dropWhile p l := by
  induction l with
  | nil => rfl
  | cons a l ih =>
      by_cases h : p a = true
      · rw [List.dropWhile_cons_of_pos h]
        exact ih
      · rw [List.dropWhile_cons_of_neg h, List.dropWhile_cons_of_neg h]

theorem head_neg_of_dropWhile_self {α : Type} (p : α → Bool) (c : α) (r : List α)
    (h : List.dropWhile p (c :: r) = c :: r) : p c = false := by
  by_cases hp : p c = true
  · rw [List.dropWhile_cons_of_pos hp] at h
    have hlen : r.length + 1 ≤ r.length := by
      calc r.length + 1 = (c :: r).length := rfl
        _ = (List.dropWhile p r).length := by rw [h]
        _ ≤ r.length := length_dropWhile_le_self p r
    omega
  · simpa using hp

theorem data_ne_nil_of_ne_empty {y : String} (hne : y ≠ "") : y.data ≠ [] := by
  intro h
  exact hne (string_ext_data (by simpa using h))

theorem pyRstrip_append_nl (s : String) : pyRstrip (s ++ "\n") = pyRstrip s := by
  apply string_ext_data
  rw [pyRstrip_data, pyRstrip_data, string_data_append]
  have h1 : (s.data ++ "\n".data).reverse = '\n' :: s.data.reverse := by
    rw [List.reverse_append]; rfl
  rw [h1, List.dropWhile_cons_of_pos (by decide)]

theorem pyRstrip_append_stable (x y : String) (hs : pyRstrip y = y) (hne : y ≠ "") :
    pyRstrip (x ++ y) = x ++ y := by
  apply string_ext_data
  rw [pyRstrip_data, string_data_append, List.reverse_append]
  have hdw : y.data.reverse.dropWhile pyIsSpace = y.data.reverse := by
    have := congrArg String.data hs
    rw [pyRstrip_data] at this
    calc y.data.reverse.dropWhile pyIsSpace
        = ((y.data.reverse.dropWhile pyIsSpace).reverse).reverse := by rw [List.reverse_reverse]
      _ = y.data.reverse := by rw [this]
  obtain ⟨c, r, hcr⟩ : ∃ c r, y.data.reverse = c :: r := by
    cases hyr : y.data.reverse with
    | nil =>
        exact absurd (by simpa using congrArg List.reverse hyr)
          (data_ne_nil_of_ne_empty hne)
    | cons c r => exact ⟨c, r, rfl⟩
  rw [hcr] at hdw
  have hc : pyIsSpace c = false := head_neg_of_dropWhile_self _ _ _ hdw
  rw [hcr, List.cons_append, dropWhile_cons_of_neg _ _ _ hc, ← List.cons_append, ← hcr,
    List.reverse_append, List.reverse_reverse, List.reverse_reverse]

theorem pyRstrip_idem (s : String) : pyRstrip (pyRstrip s) = pyRstrip s := by
  apply string_ext_data
  rw [pyRstrip_data, pyRstrip_data, List.reverse_reverse, dropWhile_self]

theorem pyRstrip_empty : pyRstrip "" = "" := rfl

/-!  Helper lemmas: `pySplitlines` and `joinN`. -/

theorem splitlinesCore_cons_nonLB (c : Char) (cs acc : List Char)
    (h : isLineBreak c = false) :
    splitlinesCore (c :: cs) acc = splitlinesCore cs (c :: acc) := by
  have h1 : ¬ (isLineBreak c = true) := by rw [h]; simp
  cases cs with
  | nil =>
      have h2 : ¬ ((c :: acc).isEmpty = true) := by simp
      simp only [splitlinesCore, if_neg h1, if_neg h2]
  | cons c' rest =>
      simp only [splitlinesCore, if_neg h1]

theorem splitlinesCore_cons_nl (cs acc : List Char) :
    splitlinesCore ('\n' :: cs) acc = String.mk acc.reverse :: splitlinesCore cs [] := by
  cases cs with
  | nil => rfl
  | cons c' rest =>
      rw [splitlinesCore, if_pos (by decide)]
      have h2 : ('\n' = '\r' && c' = '\n') = false := by simp
      rw [h2]
      simp

theorem splitlinesCore_break (rest : List Char) :
    ∀ (x acc : List Char), (∀ c ∈ x, isLineBreak c = false) →
    splitlinesCore (x ++ '\n' :: rest) acc =
      String.mk (acc.reverse ++ x) :: splitlinesCore rest [] := by
  intro x
  induction x with
  | nil =>
      intro acc _
      simp only [List.nil_append, List.append_nil]
      exact splitlinesCore_cons_nl rest acc
  | cons a x ih =>
      intro acc hx
      have ha : isLineBreak a = false := hx a (List.mem_cons_self a x)
      have hx' : ∀ c ∈ x, isLineBreak c = false := fun c hc => hx c (List.mem_cons_of_mem a hc)
      rw [List.cons_append, splitlinesCore_cons_nonLB a _ acc ha, ih (a :: acc) hx']
      simp

theorem noLB_data {s : String} (h : noLB s = true) :
    ∀ c ∈ s.data, isLineBreak c = false := by
  intro c hc
  have := List.all_eq_true.mp h c hc
  simpa using this

theorem pySplitlines_cons_line (x rest : String) (hx : noLB x = true) :
    pySplitlines (x ++ "\n" ++ rest) = x :: pySplitlines rest := by
  unfold pySplitlines
  have hdata : (x ++ "\n" ++ rest).data = x.data ++ '\n' :: rest.data := by
    rw [string_data_append, string_data_append]
    simp
  rw [hdata, splitlinesCore_break rest.data x.data [] (noLB_data hx)]
  simp

theorem joinN_cons_cons (x y : String) (t : List String) :
    joinN (x :: y :: t) = x ++ "\n" ++ joinN (y :: t) := rfl

theorem pySplitlines_join (L : List String) (hL : L ≠ [])
    (hnb : ∀ l ∈ L, noLB l = true) : pySplitlines (joinN L ++ "\n") = L := by
  induction L with
  | nil => exact absurd rfl hL
  | cons x t ih =>
      cases t with
      | nil =>
          have hx : noLB x = true := hnb x (List.mem_cons_self x [])
          have h0 : pySplitlines (x ++ "\n" ++ "") = x :: pySplitlines "" :=
            pySplitlines_cons_line x "" hx
          rw [String.append_empty] at h0
          show pySplitlines (x ++ "\n") = [x]
          rw [h0]
          rfl
      | cons y t' =>
          have hx : noLB x = true := hnb x (List.mem_cons_self x _)
          have hrest : ∀ l ∈ y :: t', noLB l = true :=
            fun l hl => hnb l (List.mem_cons_of_mem x hl)
          rw [joinN_cons_cons, String.append_assoc, String.append_assoc,
            ← String.append_assoc x]
          rw [pySplitlines_cons_line x (joinN (y :: t') ++ "\n") hx,
            ih (by simp) hrest]

theorem splitlinesCore_noLB :
    ∀ (cs acc : List Char), (∀ c ∈ acc, isLineBreak c = false) →
    ∀ l ∈ splitlinesCore cs acc, noLB l = true := by
  intro cs acc
  induction cs, acc using splitlinesCore.induct with
  | case1 acc he =>
      intro _ l hl
      rw [splitlinesCore, if_pos he] at hl
      simp at hl
  | case2 acc he =>
      intro hacc l hl
      rw [splitlinesCore, if_neg he] at hl
      simp at hl
      subst hl
      simp only [noLB, List.all_eq_true]
      intro c hc
      simpa using hacc c (by simpa using hc)
  | case3 c acc hc =>
      intro hacc l hl
      rw [splitlinesCore, if_pos hc] at hl
      simp at hl
      subst hl
      simp only [noLB, List.all_eq_true]
      intro d hd
      simpa using hacc d (by simpa using hd)
  | case4 c acc hc =>
      intro hacc l hl
      simp only [splitlinesCore, if_neg hc] at hl
      simp only [List.mem_singleton] at hl
      subst hl
      simp only [noLB, data_mk, List.all_eq_true]
      intro d hd
      simp only [List.mem_reverse] at hd
      rcases List.mem_cons.mp hd with h | h
      · subst h
        simpa using hc
      · simpa using hacc d h
  | case5 c c' rest acc hc hpair ih =>
      intro hacc l hl
      rw [splitlinesCore, if_pos hc, if_pos hpair] at hl
      rcases List.mem_cons.mp hl with h | h
      · subst h
        simp only [noLB, List.all_eq_true]
        intro d hd
        simpa using hacc d (by simpa using hd)
      · exact ih (by intro d hd; simp at hd) l h
  | case6 c c' rest acc hc hpair ih =>
      intro hacc l hl
      rw [splitlinesCore, if_pos hc, if_neg hpair] at hl
      rcases List.mem_cons.mp hl with h | h
      · subst h
        simp only [noLB, List.all_eq_true]
        intro d hd
        simpa using hacc d (by simpa using hd)
      · exact ih (by intro d hd; simp at hd) l h
  | case7 c c' rest acc hc ih =>
      intro hacc l hl
      rw [splitlinesCore, if_neg hc] at hl
      refine ih ?_ l hl
      intro d hd
      rcases List.mem_cons.mp hd with h | h
      · subst h
        simpa using hc
      · exact hacc d h

theorem pySplitlines_noLB (s : String) : ∀ l ∈ pySplitlines s, noLB l = true :=
  splitlinesCore_noLB s.data [] (by intro c hc; simp at hc)

theorem readLines_noLB (old : Option String) : ∀ l ∈ readLines old, noLB l = true := by
  cases old with
  | none => intro l hl; simp [readLines] at hl
  | some s => exact pySplitlines_noLB s

/-!  Helper lemmas: `writeLines`. -/

theorem joinN_append_last (L : List String) (y : String) (hL : L ≠ []) :
    joinN (L ++ [y]) = joinN L ++ "\n" ++ y := by
  induction L with
  | nil => exact absurd rfl hL
  | cons x t ih =>
      cases t with
      | nil => rfl
      | cons z t' =>
          have hih := ih (by simp)
          rw [List.cons_append] at hih
          rw [List.cons_append, List.cons_append, joinN_cons_cons, hih,
            joinN_cons_cons x z t']
          simp [String.append_assoc]

theorem goodLast_nonempty {L : List String} (h : goodLast L) : L ≠ [] := by
  intro hL
  subst hL
  exact h.1 rfl

theorem goodLast_append {A B : List String} (hB : B ≠ [])
    (h : goodLast B) : goodLast (A ++ B) := by
  unfold goodLast at h ⊢
  rw [lastLine_append A B hB]
  exact h

theorem goodLast_singleton {x : String} (h1 : x ≠ "") (h2 : pyRstrip x = x) :
    goodLast [x] := by
  unfold goodLast lastLine
  simp only [List.getLast?_singleton, Option.getD_some]
  exact ⟨h1, h2⟩

theorem pyRstrip_joinN_goodLast (L : List String) (h : goodLast L) :
    pyRstrip (joinN L) = joinN L := by
  obtain ⟨h1, h2⟩ := h
  have hne : L ≠ [] := goodLast_nonempty ⟨h1, h2⟩
  obtain ⟨M, y, hMy⟩ : ∃ M y, L = M ++ [y] :=
    ⟨L.dropLast, L.getLast hne, (List.dropLast_append_getLast hne).symm⟩
  subst hMy
  have hy : lastLine (M ++ [y]) = y := by
    rw [lastLine_append M [y] (by simp)]
    rfl
  rw [hy] at h1 h2
  cases M with
  | nil =>
      show pyRstrip (joinN [y]) = joinN [y]
      exact h2
  | cons m t =>
      rw [joinN_append_last (m :: t) y (by simp)]
      exact pyRstrip_append_stable (joinN (m :: t) ++ "\n") y h2 h1

theorem writeLines_goodLast (L : List String) (h : goodLast L) :
    writeLines L = joinN L ++ "\n" := by
  unfold writeLines
  rw [pyRstrip_joinN_goodLast L h]

theorem writeLines_roundtrip (L : List String) (h : goodLast L)
    (hnb : ∀ l ∈ L, noLB l = true) : pySplitlines (writeLines L) = L := by
  rw [writeLines_goodLast L h]
  exact pySplitlines_join L (goodLast_nonempty h) hnb

theorem writeLines_append_blank (L : List String) :
    writeLines (L ++ [""]) = writeLines L := by
  unfold writeLines
  cases L with
  | nil => rfl
  | cons x t =>
      rw [joinN_append_last (x :: t) "" (by simp), String.append_empty,
        pyRstrip_append_nl]

/-!  Helper lemmas: the section-end scan loop. -/

theorem scanJAux_spec_aux (base : Nat) (lines : List String) :
    ∀ (n j : Nat), lines.length - j = n → j < lines.length →
    j ≤ scanJAux base (lines.drop j) j ∧
    scanJAux base (lines.drop j) j ≤ max j lines.length ∧
    (∀ i, j ≤ i → i < scanJAux base (lines.drop j) j →
      isBoundaryLine (lines.getD i "") base = false) ∧
    (scanJAux base (lines.drop j) j < lines.length →
      isBoundaryLine (lines.getD (scanJAux base (lines.drop j) j) "") base = true) := by
  intro n
  induction n with
  | zero => intro j hn hj; omega
  | succ n ih =>
      intro j hn hj
      obtain ⟨l, rest, hcons⟩ : ∃ l rest, lines.drop j = l :: rest := by
        cases hd : lines.drop j with
        | nil =>
            have := List.drop_eq_nil_iff_le.mp hd
            omega
        | cons l rest => exact ⟨l, rest, rfl⟩
      have hl : lines.getD j "" = l := by
        have h0 : (lines.drop j).getD 0 "" = l := by rw [hcons]; rfl
        rw [getD_drop] at h0
        simpa using h0
      rw [hcons]
      by_cases hb : isBoundaryLine l base = true
      case pos =>
        rw [scanJAux, if_pos hb]
        refine ⟨Nat.le_refl j, by omega, ?_, ?_⟩
        · intro i h1 h2; omega
        · intro _; rw [hl]; exact hb
      case neg =>
        have hb' : isBoundaryLine l base = false := by
          cases hb2 : isBoundaryLine l base with
          | false => rfl
          | true => exact absurd hb2 hb
        rw [scanJAux, if_neg hb]
        have hrest : lines.drop (j + 1) = rest := by
          have hdd : lines.drop (j + 1) = (lines.drop j).drop 1 := by
            rw [List.drop_drop]
          rw [hdd, hcons]
          rfl
        by_cases hj1 : j + 1 < lines.length
        case pos =>
          have hspec := ih (j + 1) (by omega) hj1
          rw [hrest] at hspec
          refine ⟨by omega, by omega, ?_, hspec.2.2.2⟩
          intro i h1 h2
          rcases Nat.eq_or_lt_of_le h1 with he | hlt
          · rw [← he, hl]; exact hb'
          · exact hspec.2.2.1 i hlt h2
        case neg =>
          have hrest2 : rest = [] := by
            have hd0 : lines.drop (j + 1) = [] := List.drop_eq_nil_of_le (by omega)
            rw [hrest] at hd0
            exact hd0
          rw [hrest2]
          have he2 : scanJAux base [] (j + 1) = j + 1 := rfl
          rw [he2]
          refine ⟨by omega, by omega, ?_, fun hcon => absurd hcon hj1⟩
          intro i h1 h2
          have hij : i = j := by omega
          rw [hij, hl]
          exact hb'

theorem scanJAux_spec (base : Nat) (lines : List String) :
    ∀ (j : Nat),
    j ≤ scanJAux base (lines.drop j) j ∧
    scanJAux base (lines.drop j) j ≤ max j lines.length ∧
    (∀ i, j ≤ i → i < scanJAux base (lines.drop j) j →
      isBoundaryLine (lines.getD i "") base = false) ∧
    (scanJAux base (lines.drop j) j < lines.length →
      isBoundaryLine (lines.getD (scanJAux base (lines.drop j) j) "") base = true) := by
  intro j
  by_cases hj : j < lines.length
  case neg =>
    have hdrop : lines.drop j = [] := List.drop_eq_nil_of_le (by omega)
    rw [hdrop]
    have he : scanJAux base [] j = j := rfl
    rw [he]
    refine ⟨Nat.le_refl j, by omega, ?_, by omega⟩
    intro i h1 h2
    omega
  case pos => exact scanJAux_spec_aux base lines (lines.length - j) j rfl hj

/-- The value of `j` computed by the while loop of
`_scan_to_section_end`, before the blank-insertion step. -/
def scanJ (lines : List String) (headingIdx : Nat) : Nat :=
  scanJAux (leadingHashes (lines.getD headingIdx "")) (lines.drop (headingIdx + 1))
    (headingIdx + 1)

theorem scanToSectionEnd_eq (lines : List String) (headingIdx : Nat) :
    scanToSectionEnd lines headingIdx =
      if scanJ lines headingIdx = headingIdx + 1 ∨
         (scanJ lines headingIdx < lines.length ∧
          pyStrip (lines.getD (scanJ lines headingIdx - 1) "") ≠ "") then
        (lines.take (scanJ lines headingIdx) ++ [""] ++ lines.drop (scanJ lines headingIdx),
         scanJ lines headingIdx + 1)
      else (lines, scanJ lines headingIdx) := rfl

/-!  Helper lemmas: the heading-search loop. -/

theorem toggleFindAux_append (opn don state : String) :
    ∀ (A : List String),
    (∀ l ∈ A, ¬(pyStrip l = opn ∧ state = "done") ∧
              ¬(pyStrip l = don ∧ state = "open")) →
    ∀ (rest : List String) (i : Nat),
    toggleFindAux opn don state (A ++ rest) i =
      toggleFindAux opn don state rest (i + A.length) := by
  intro A
  induction A with
  | nil => intro _ rest i; simp
  | cons a A ih =>
      intro hA rest i
      have ha := hA a (List.mem_cons_self a A)
      rw [List.cons_append, toggleFindAux, if_neg ha.1, if_neg ha.2,
        ih (fun l hl => hA l (List.mem_cons_of_mem a hl)) rest (i + 1)]
      congr 1
      simp only [List.length_cons]
      omega

/-!  Helper lemmas: `pyLstrip` and `pyStrip` stability. -/

theorem pyLstrip_cons_stable (s : String) (c : Char) (r : List Char)
    (h : s.data = c :: r) (hc : pyIsSpace c = false) : pyLstrip s = s := by
  apply string_ext_data
  unfold pyLstrip
  rw [data_mk, h, List.dropWhile_cons_of_neg (by rw [hc]; simp)]

theorem append_ne_empty_left (x y : String) (hx : x ≠ "") : x ++ y ≠ "" := by
  intro h
  apply hx
  have hd := congrArg String.data h
  rw [string_data_append] at hd
  have hnil : x.data = [] := (List.append_eq_nil.mp (by simpa using hd)).1
  exact string_ext_data (by simpa using hnil)

theorem noLB_append (x y : String) (hx : noLB x = true) (hy : noLB y = true) :
    noLB (x ++ y) = true := by
  simp only [noLB, string_data_append, List.all_append]
  simp only [noLB] at hx hy
  rw [hx, hy]
  rfl

theorem goodLast_getLast?_ne {L : List String} (h : goodLast L) :
    L.getLast? ≠ some "" := by
  intro hc
  apply h.1
  unfold lastLine
  rw [hc]
  rfl

/-!  Generic lemmas relating `contentOp` and `runOp`. -/

theorem runOp_of_contentOp (op : MutOp) (p : String) (old : Option String)
    (L : List String) (h : contentOp op p old = .ok L) :
    runOp op p old = .ok (writeLines L) := by
  unfold runOp
  rw [h]
  rfl

theorem runOp_of_contentOp_error (op : MutOp) (p : String) (old : Option String)
    (e : String) (h : contentOp op p old = .error e) :
    runOp op p old = .error e := by
  unfold runOp
  rw [h]
  rfl

theorem noteAppendLines_bottom_eq (body : String) (old : Option String)
    (L : List String) (hL : readLines old = L)
    (hne : L ≠ []) (hlast : L.getLast? ≠ some "") :
    noteAppendLines body "bottom" none old =
      .ok ((L ++ [""]) ++ (pySplitlines body ++ [""])) := by
  simp only [noteAppendLines, hL]
  rw [if_neg (by decide), if_neg (by decide), if_pos ⟨hne, hlast⟩]
  simp [List.append_assoc]

theorem taskToggleLines_eq (state t : String) (old : Option String) (ht : t ≠ "")
    (L : List String) (hL : readLines old = L) (hne : L ≠ [])
    (i : Nat) (r : String)
    (hfound : toggleFindAux ("- [ ] " ++ t) ("- [x] " ++ t) state L 0 = some (i, r)) :
    taskToggleLines state (some t) old = .ok (L.set i r) := by
  simp only [taskToggleLines, hL, Option.getD_some]
  rw [if_neg ht, if_neg hne, hfound]

theorem taskCreateLines_eq (t : String) (old : Option String)
    (L : List String) (hL : readLines old = L) :
    taskCreateLines t none none old =
      .ok ((if L ≠ [] ∧ L.getLast? ≠ some "" then L ++ [""] else L) ++ ["- [ ] " ++ t]) := by
  simp only [taskCreateLines, hL]

theorem toggleFindAux_last_open (opn don : String) (A : List String)
    (hA : ∀ l ∈ A, pyStrip l ≠ opn) (hopn : pyStrip opn = opn) :
    toggleFindAux opn don "done" (A ++ [opn]) 0 = some (A.length, don) := by
  have hall : ∀ l ∈ A,
      ¬(pyStrip l = opn ∧ ("done" : String) = "done") ∧
      ¬(pyStrip l = don ∧ ("done" : String) = "open") := by
    intro l hl
    exact ⟨fun hc => hA l hl hc.1, fun hc => absurd hc.2 (by decide)⟩
  rw [toggleFindAux_append opn don "done" A hall [opn] 0, toggleFindAux,
    if_pos ⟨hopn, rfl⟩]
  simp

theorem toggleFindAux_last_done (opn don : String) (A : List String)
    (hA : ∀ l ∈ A, pyStrip l ≠ don) (hdon : pyStrip don = don) :
    toggleFindAux opn don "open" (A ++ [don]) 0 = some (A.length, opn) := by
  have hall : ∀ l ∈ A,
      ¬(pyStrip l = opn ∧ ("open" : String) = "done") ∧
      ¬(pyStrip l = don ∧ ("open" : String) = "open") := by
    intro l hl
    exact ⟨fun hc => absurd hc.2 (by decide), fun hc => hA l hl hc.1⟩
  rw [toggleFindAux_append opn don "open" A hall [don] 0, toggleFindAux,
    if_neg (fun hc => absurd hc.2 (by decide)), if_pos ⟨hdon, rfl⟩]
  simp

/-!  Helper lemmas: no content-level error message collides with the
path-safety messages, and `fullOp` reduces to the `_safe_path`-first
sequence whenever the operation is not a toggle with missing text. -/

theorem create_error_ne (p : String) :
    "note already exists: " ++ p ≠ "path escapes vault root" := by
  intro h
  have hd : ("note already exists: " ++ p).data.head? = some 'n' := by
    rw [string_data_append]
    rfl
  rw [h] at hd
  exact absurd hd (by decide)

theorem contentOp_error_ne (op : MutOp) (p : String) (old : Option String)
    (e : String) (h : contentOp op p old = .error e) :
    e ≠ "path escapes vault root" := by
  cases op with
  | create title body =>
      cases old with
      | none =>
          simp only [contentOp, noteCreateLines] at h
          exact absurd h (by simp)
      | some c =>
          simp only [contentOp, noteCreateLines, Except.error.injEq] at h
          rw [← h]
          exact create_error_ne p
  | update body =>
      simp only [contentOp, noteUpdateLines] at h
      exact absurd h (by simp)
  | append body pos hd =>
      simp only [contentOp, noteAppendLines] at h
      repeat' split at h
      all_goals simp at h
      all_goals subst h
      all_goals decide
  | taskCreate text due tags =>
      simp only [contentOp, taskCreateLines] at h
      exact absurd h (by simp)
  | taskToggle state text =>
      simp only [contentOp, taskToggleLines] at h
      repeat' split at h
      all_goals simp at h
      all_goals subst h
      all_goals decide

theorem fullOp_eq_bind (op : MutOp) (vault : List String) (rel : String)
    (old : Option String)
    (h : ∀ state text, op = .taskToggle state text → text.getD "" ≠ "") :
    fullOp op vault rel old = (safePath vault rel).bind (fun _ => runOp op rel old) := by
  cases op with
  | taskToggle state text =>
      simp only [fullOp]
      rw [if_neg (h state text rfl)]
  | create title body => rfl
  | update body => rfl
  | append body pos hd => rfl
  | taskCreate text due tags => rfl

/-!  Decidable equality for `Except` results, used to evaluate the
operations at concrete inputs. -/

deriving instance DecidableEq for Except

/-!  Claim theorems. -/

/-- C10: every mutation operation (note create/update/append, task
create/toggle) that reaches its write step produces file content equal
to the fully right-stripped text plus exactly one final newline: the
written content `c` satisfies `pyRstrip c ++ "\n" = c`, i.e. all
trailing whitespace and trailing blank lines are stripped and a single
newline is appended, so the file never ends in a blank line and always
ends in one newline character. -/
theorem c10_write_normalization (op : MutOp) (p : String) (old : Option String)
    (c : String) (h : runOp op p old = .ok c) :
    pyRstrip c ++ "\n" = c ∧ ∃ X, c = X ++ "\n" ∧ pyRstrip X = X := by
  obtain ⟨L, _, hc⟩ : ∃ L, contentOp op p old = .ok L ∧ c = writeLines L := by
    unfold runOp at h
    cases hco : contentOp op p old with
    | error e =>
        rw [hco] at h
        exact absurd h (by simp [Except.map])
    | ok L =>
        rw [hco] at h
        refine ⟨L, rfl, ?_⟩
        simpa [Except.map] using h.symm
  subst hc
  unfold writeLines
  refine ⟨?_, pyRstrip (joinN L), rfl, pyRstrip_idem (joinN L)⟩
  rw [pyRstrip_append_nl, pyRstrip_idem]

/-- C10 witness: `note.update` with body `"x"` on a fresh file writes
`"x\n"`, which is its own rstrip plus one newline. -/
theorem c10_write_normalization_witness :
    pyRstrip "x\n" ++ "\n" = "x\n" ∧ ∃ X, "x\n" = X ++ "\n" ∧ pyRstrip X = X :=
  c10_write_normalization (.update "x") "p" none "x\n" (by decide)

/-- C6 counterexample: `note.update` with body `"a "` (one trailing
space) writes `"a\n"`, whose line list `["a"]` differs from the body
line list `["a "]` — the file content afterwards is not exactly the
given body lines, because the write step right-strips the text. -/
theorem c6_update_cex :
    runOp (.update "a ") "p" none = .ok "a\n" ∧
    pySplitlines "a\n" = ["a"] ∧
    pySplitlines "a " = ["a "] ∧
    pySplitlines "a\n" ≠ pySplitlines "a " := by decide

/-- C6 (amended): `note.update` unconditionally overwrites the target
with `writeLines` of the body lines, independent of the previous
content and of whether the file existed; the stored line list equals
the body lines exactly whenever the body is non-empty and its last
line carries no trailing whitespace (otherwise the final write strips
the trailing whitespace and trailing blank lines). -/
theorem c6_update_amended (body p : String) (old : Option String) :
    runOp (.update body) p old = .ok (writeLines (pySplitlines body)) ∧
    (goodLast (pySplitlines body) →
      pySplitlines (writeLines (pySplitlines body)) = pySplitlines body) :=
  ⟨rfl, fun hg => writeLines_roundtrip _ hg (pySplitlines_noLB body)⟩

/-- C6 witness: updating with body `"a"` (over any previous content)
stores exactly `["a"]`. -/
theorem c6_update_amended_witness :
    runOp (.update "a") "p" (some "old stuff\n") =
      .ok (writeLines (pySplitlines "a")) ∧
    pySplitlines (writeLines (pySplitlines "a")) = pySplitlines "a" :=
  ⟨(c6_update_amended "a" "p" (some "old stuff\n")).1,
   (c6_update_amended "a" "p" (some "old stuff\n")).2 (by decide)⟩

/-- C1 counterexample: the input path `"../vv/a.md"` contains a `..`
segment and its canonical form `/vv/a.md` is not a descendant of the
vault root `/v` (the resolved component list does not start with the
root components), yet `note.update` does not fail with an escapes-root
error: it succeeds and writes, because `_safe_path`'s containment check
is a string-prefix test and `"/vv/a.md"` starts with `"/v"`. -/
theorem c1_path_safety_cex :
    ".." ∈ pathParts "../vv/a.md" ∧
    resolveStack (["v"] ++ pathParts "../vv/a.md") = ["vv", "a.md"] ∧
    (resolveStack (["v"] ++ pathParts "../vv/a.md")).take 1 ≠ ["v"] ∧
    fullOp (.update "x") ["v"] "../vv/a.md" none = .ok "x\n" := by decide

/-- C1 (amended): for every mutation operation except `task.toggle`
with a missing or empty `task_text` — which fails with the
task-text-required error before any path check — the path checks run
first: an absolute input path fails with the not-vault-relative error;
otherwise a path whose final component does not carry the `.md` suffix
(case-insensitive) fails with the wrong-suffix error; and the operation
fails with the escapes-root error exactly when the path is relative,
carries the `.md` suffix, and the rendered canonical absolute path does
not have the rendered vault root as a string prefix — so `..` segments
are rejected only insofar as the resolved path fails this string-prefix
test.  In each failure case the operation returns the error before the
write step, so no file is written. -/
theorem c1_path_safety_amended (op : MutOp) (vault : List String) (rel : String)
    (old : Option String) :
    (∀ state text, op = .taskToggle state text → text.getD "" = "" →
      fullOp op vault rel old =
        .error "task_text is required for task.toggle in filesystem adapter") ∧
    ((∀ state text, op = .taskToggle state text → text.getD "" ≠ "") →
      (pyIsAbs rel = true →
        fullOp op vault rel old = .error "path must be vault-relative, not absolute") ∧
      (pyIsAbs rel = false → pyToLower (pySuffix (pyName rel)) ≠ ".md" →
        fullOp op vault rel old = .error "path must end with .md") ∧
      (fullOp op vault rel old = .error "path escapes vault root" ↔
        pyIsAbs rel = false ∧ pyToLower (pySuffix (pyName rel)) = ".md" ∧
        strStartsWith (renderAbs (resolveStack (vault ++ pathParts rel)))
          (renderAbs vault) = false)) := by
  constructor
  · intro state text hop he
    subst hop
    simp only [fullOp]
    rw [if_pos he]
  · intro htext
    have hb := fullOp_eq_bind op vault rel old htext
    refine ⟨?_, ?_, ?_⟩
    · intro h
      rw [hb]
      unfold safePath
      rw [if_pos h]
      rfl
    · intro h1 h2
      rw [hb]
      unfold safePath
      rw [if_neg (by rw [h1]; simp), if_pos h2]
      rfl
    · constructor
      · intro heq
        rw [hb] at heq
        unfold safePath at heq
        by_cases h1 : pyIsAbs rel = true
        · rw [if_pos h1] at heq
          simp only [Except.bind, Except.error.injEq] at heq
          exact absurd heq (by decide)
        · have h1f : pyIsAbs rel = false := by
            revert h1
            cases pyIsAbs rel <;> simp
          rw [if_neg (by rw [h1f]; simp)] at heq
          by_cases h2 : pyToLower (pySuffix (pyName rel)) ≠ ".md"
          · rw [if_pos h2] at heq
            simp only [Except.bind, Except.error.injEq] at heq
            exact absurd heq (by decide)
          · have h2e : pyToLower (pySuffix (pyName rel)) = ".md" := by
              revert h2
              by_cases hx : pyToLower (pySuffix (pyName rel)) = ".md" <;> simp [hx]
            rw [if_neg h2] at heq
            by_cases h3 : strStartsWith (renderAbs (resolveStack (vault ++ pathParts rel)))
                (renderAbs vault) = true
            · rw [if_pos h3] at heq
              simp only [Except.bind] at heq
              unfold runOp at heq
              cases hco : contentOp op rel old with
              | ok L =>
                  rw [hco] at heq
                  exact absurd heq (by simp [Except.map])
              | error e =>
                  rw [hco] at heq
                  simp only [Except.map, Except.error.injEq] at heq
                  exact absurd heq (contentOp_error_ne op rel old e hco)
            · have h3f : strStartsWith (renderAbs (resolveStack (vault ++ pathParts rel)))
                  (renderAbs vault) = false := by
                revert h3
                cases strStartsWith (renderAbs (resolveStack (vault ++ pathParts rel)))
                  (renderAbs vault) <;> simp
              exact ⟨h1f, h2e, h3f⟩
      · intro hc
        obtain ⟨h1, h2, h3⟩ := hc
        rw [hb]
        unfold safePath
        rw [if_neg (by rw [h1]; simp), if_neg (by simp [h2]), if_neg (by rw [h3]; simp)]
        rfl

/-- C1 witness: the four rejection kinds at concrete inputs — a toggle
with missing text fails with the task-text error even on an absolute
path, and the three path errors fire on `note.update`; the escapes-root
case goes through the reverse direction of the biconditional. -/
theorem c1_path_safety_witness :
    fullOp (.taskToggle "done" none) ["v"] "/a.md" none =
      .error "task_text is required for task.toggle in filesystem adapter" ∧
    fullOp (.update "x") ["v"] "/a.md" none =
      .error "path must be vault-relative, not absolute" ∧
    fullOp (.update "x") ["v"] "a.txt" none = .error "path must end with .md" ∧
    fullOp (.update "x") ["v"] "../x/a.md" none = .error "path escapes vault root" :=
  ⟨(c1_path_safety_amended (.taskToggle "done" none) ["v"] "/a.md" none).1
     "done" none rfl (by decide),
   ((c1_path_safety_amended (.update "x") ["v"] "/a.md" none).2
     (fun state text h => MutOp.noConfusion h)).1 (by decide),
   ((c1_path_safety_amended (.update "x") ["v"] "a.txt" none).2
     (fun state text h => MutOp.noConfusion h)).2.1 (by decide) (by decide),
   ((c1_path_safety_amended (.update "x") ["v"] "../x/a.md" none).2
     (fun state text h => MutOp.noConfusion h)).2.2.mpr
     ⟨by decide, by decide, by decide⟩⟩

/-- C8 counterexample: the document `"  - [ ] a\n"` has no line exactly
equal to the open form `"- [ ] a"` (its only line is indented), yet
`task.toggle(state=done, text="a")` does not fail: the comparison
strips each line first, so it matches and succeeds (also discarding the
indentation of the rewritten line). -/
theorem c8_toggle_cex :
    (∀ l ∈ readLines (some "  - [ ] a\n"), l ≠ "- [ ] a") ∧
    runOp (.taskToggle "done" (some "a")) "p" (some "  - [ ] a\n") =
      .ok "- [x] a\n" := by decide

/-- C8 (amended): `task.toggle` fails with the task-text-required error
when `task_text` is missing or empty; fails with the
file-not-found-or-empty error when the document has no lines; and fails
with the matching-task-not-found error when no line of the document,
after stripping surrounding whitespace, equals the open form (when
requesting done) or the done form (when requesting open).  Every
failure is raised before the write step, so the document is left
unmodified. -/
theorem c8_toggle_failures (state : String) (text : Option String)
    (old : Option String) :
    (text.getD "" = "" →
      taskToggleLines state text old =
        .error "task_text is required for task.toggle in filesystem adapter") ∧
    (∀ t, text = some t → t ≠ "" → readLines old = [] →
      taskToggleLines state text old = .error "file not found or empty") ∧
    (∀ t, text = some t → t ≠ "" → readLines old ≠ [] →
      (∀ l ∈ readLines old,
        ¬(pyStrip l = "- [ ] " ++ t ∧ state = "done") ∧
        ¬(pyStrip l = "- [x] " ++ t ∧ state = "open")) →
      taskToggleLines state text old = .error "matching task not found to toggle") := by
  refine ⟨?_, ?_, ?_⟩
  · intro h
    unfold taskToggleLines
    rw [if_pos h]
  · intro t ht hne hrd
    subst ht
    simp only [taskToggleLines, Option.getD_some]
    rw [if_neg hne, hrd]
    simp
  · intro t ht hne hrd hall
    subst ht
    simp only [taskToggleLines, Option.getD_some]
    rw [if_neg hne, if_neg hrd]
    have hskip := toggleFindAux_append ("- [ ] " ++ t) ("- [x] " ++ t) state
      (readLines old) hall [] 0
    rw [List.append_nil] at hskip
    rw [hskip]
    rfl

/-- C8 witness: the three failure kinds at concrete inputs. -/
theorem c8_toggle_failures_witness :
    taskToggleLines "done" none (some "x\n") =
      .error "task_text is required for task.toggle in filesystem adapter" ∧
    taskToggleLines "done" (some "q") none = .error "file not found or empty" ∧
    taskToggleLines "done" (some "q") (some "x\n") =
      .error "matching task not found to toggle" :=
  ⟨(c8_toggle_failures "done" none (some "x\n")).1 (by decide),
   (c8_toggle_failures "done" (some "q") none).2.1 "q" rfl (by decide) (by decide),
   (c8_toggle_failures "done" (some "q") (some "x\n")).2.2 "q" rfl (by decide)
     (by decide) (by decide)⟩

/-- C9: command validation is all-or-nothing — a payload violating the
per-action required-field matrix (or carrying an invalid field value)
never yields a constructed command; the failure carries the complete
list of missing and invalid field names at once; and a payload missing
exactly one required field fails naming exactly that field.  The
`ObsidianCommand` pydantic model is not part of the available sources,
so the validator is modelled from the spec. -/
theorem c9_validate_all_or_nothing (a : Action) (p : VPayload) :
    ((validateCommand a p).isOk = true ↔
      missingFields a p = [] ∧ invalidFields p = []) ∧
    (missingFields a p ++ invalidFields p ≠ [] →
      validateCommand a p = .error (missingFields a p ++ invalidFields p)) ∧
    (∀ f, missingFields a p = [f] → invalidFields p = [] →
      validateCommand a p = .error [f]) := by
  unfold validateCommand
  by_cases h : missingFields a p ++ invalidFields p = []
  · obtain ⟨h1, h2⟩ := List.append_eq_nil.mp h
    rw [if_pos h]
    refine ⟨⟨fun _ => ⟨h1, h2⟩, fun _ => rfl⟩, fun hcon => absurd h hcon, ?_⟩
    intro f hf _
    rw [hf] at h1
    simp at h1
  · rw [if_neg h]
    refine ⟨⟨fun hok => by simp [Except.isOk, Except.toBool] at hok, ?_⟩, fun _ => rfl, ?_⟩
    · intro hcon
      exact absurd (by rw [hcon.1, hcon.2]; rfl) h
    · intro f hf hinv
      rw [hf, hinv]
      simp

/-- C9 witness: `task.toggle` with only a path fails naming exactly
`task_state`; `note.create` with an empty payload fails naming `path`,
`title` and `body_md` at once. -/
theorem c9_validate_all_or_nothing_witness :
    validateCommand .taskToggle ⟨some "a.md", none, none, none, none, none, none⟩ =
      .error ["task_state"] ∧
    validateCommand .noteCreate ⟨none, none, none, none, none, none, none⟩ =
      .error ["path", "title", "body_md"] :=
  ⟨(c9_validate_all_or_nothing .taskToggle
      ⟨some "a.md", none, none, none, none, none, none⟩).2.2 "task_state"
      (by decide) (by decide),
   (c9_validate_all_or_nothing .noteCreate
      ⟨none, none, none, none, none, none, none⟩).2.1 (by decide)⟩

/-- C2 counterexample: scanning `["# A", "x"]` from heading index 0
ends at index 2 (end-of-document); the line immediately before the
computed end, `"x"`, is non-empty, yet no blank line is inserted and
the end index does not advance — the insertion is skipped at
end-of-document unless the section is empty. -/
theorem c2_scan_cex :
    scanToSectionEnd ["# A", "x"] 0 = (["# A", "x"], 2) ∧
    ["# A", "x"].getD 1 "" ≠ "" := by decide

/-- C2 (amended): from a heading at `hIdx`, the scan walks forward from
`hIdx + 1` to the first line that is a heading of level (count of
leading `#`) at most the starting heading's level — deeper headings
never end the section — or to the line count if there is none; a blank
line is then inserted at the end position (advancing it by one) exactly
when that position is `hIdx + 1` (empty section) or it is strictly
before end-of-document with a non-blank (after stripping) line directly
before it; in particular no blank is inserted at end-of-document even
when the last line is non-empty. -/
theorem c2_scan_amended (lines : List String) (hIdx : Nat) (h : hIdx < lines.length) :
    (hIdx + 1 ≤ scanJ lines hIdx ∧ scanJ lines hIdx ≤ lines.length) ∧
    (∀ i, hIdx < i → i < scanJ lines hIdx →
      isBoundaryLine (lines.getD i "") (leadingHashes (lines.getD hIdx "")) = false) ∧
    (scanJ lines hIdx < lines.length →
      isBoundaryLine (lines.getD (scanJ lines hIdx) "")
        (leadingHashes (lines.getD hIdx "")) = true) ∧
    (scanJ lines hIdx = hIdx + 1 ∨
       (scanJ lines hIdx < lines.length ∧
        pyStrip (lines.getD (scanJ lines hIdx - 1) "") ≠ "") →
      scanToSectionEnd lines hIdx =
        (lines.take (scanJ lines hIdx) ++ [""] ++ lines.drop (scanJ lines hIdx),
         scanJ lines hIdx + 1)) ∧
    (¬ (scanJ lines hIdx = hIdx + 1 ∨
       (scanJ lines hIdx < lines.length ∧
        pyStrip (lines.getD (scanJ lines hIdx - 1) "") ≠ "")) →
      scanToSectionEnd lines hIdx = (lines, scanJ lines hIdx)) := by
  have hspec := scanJAux_spec (leadingHashes (lines.getD hIdx "")) lines (hIdx + 1)
  have hJ : scanJ lines hIdx =
      scanJAux (leadingHashes (lines.getD hIdx "")) (lines.drop (hIdx + 1)) (hIdx + 1) := rfl
  refine ⟨⟨by rw [hJ]; exact hspec.1, by rw [hJ]; omega⟩, ?_, ?_, ?_, ?_⟩
  · intro i h1 h2
    rw [hJ] at h2
    exact hspec.2.2.1 i (by omega) h2
  · intro hlt
    rw [hJ] at hlt ⊢
    exact hspec.2.2.2 hlt
  · intro hcond
    rw [scanToSectionEnd_eq, if_pos hcond]
  · intro hcond
    rw [scanToSectionEnd_eq, if_neg hcond]

/-- C2 witness: scanning `["# A", "x", "## B", "y", "# C"]` from
index 0 skips the deeper `## B`, stops at `# C` (index 4), and inserts
a blank before it since `"y"` is non-blank. -/
theorem c2_scan_amended_witness :
    isBoundaryLine (["# A", "x", "## B", "y", "# C"].getD
        (scanJ ["# A", "x", "## B", "y", "# C"] 0) "")
      (leadingHashes (["# A", "x", "## B", "y", "# C"].getD 0 "")) = true ∧
    scanToSectionEnd ["# A", "x", "## B", "y", "# C"] 0 =
      (["# A", "x", "## B", "y", "# C"].take (scanJ ["# A", "x", "## B", "y", "# C"] 0) ++
        [""] ++
        ["# A", "x", "## B", "y", "# C"].drop (scanJ ["# A", "x", "## B", "y", "# C"] 0),
       scanJ ["# A", "x", "## B", "y", "# C"] 0 + 1) := by
  have hth := c2_scan_amended ["# A", "x", "## B", "y", "# C"] 0 (by decide)
  exact ⟨hth.2.2.1 (by decide), hth.2.2.2.1 (by decide)⟩


/-- C4 counterexample: on a fresh path with title `"T"` and empty body
(the body does not start with a heading marker), the written file is
`"# T\n"`, whose line list is `["# T"]` — it does not continue with a
blank line after the title line, because the write step strips the
trailing blank before appending the final newline. -/
theorem c4_create_cex :
    runOp (.create "T" "") "p" none = .ok "# T\n" ∧
    pySplitlines "# T\n" = ["# T"] ∧
    pySplitlines "# T\n" ≠ ["# T", ""] := by decide

/-- C4 (amended): `note.create` fails with the already-exists error
when the target file exists (no write happens, so it is unchanged);
otherwise, when the title is non-empty (and newline-free, so that
`# <title>` is one line) and the body does not start with a heading
marker after left-stripping, the computed line sequence is the line
`# <title>`, a blank line, then the body lines, and the stored file
equals exactly that sequence whenever the body is non-empty with no
trailing whitespace on its last line; for an empty or
whitespace-trailing body the final write strips the trailing blank
material (removing the separator blank line itself when the body is
blank). -/
theorem c4_create_amended (p title body : String) (old : Option String) :
    (∀ c, old = some c →
      runOp (.create title body) p old = .error ("note already exists: " ++ p)) ∧
    (old = none → title ≠ "" → noLB title = true →
      strStartsWith (pyLstrip body) "#" = false →
      runOp (.create title body) p old =
        .ok (writeLines (("# " ++ title) :: "" :: pySplitlines body)) ∧
      (goodLast (pySplitlines body) →
        pySplitlines (writeLines (("# " ++ title) :: "" :: pySplitlines body)) =
          ("# " ++ title) :: "" :: pySplitlines body)) := by
  constructor
  · intro c hc
    subst hc
    rfl
  · intro h0 h1 hnb h2
    subst h0
    constructor
    · apply runOp_of_contentOp
      show noteCreateLines p title body none = _
      simp only [noteCreateLines]
      rw [if_pos ⟨h1, by rw [h2]; simp⟩]
      rfl
    · intro hg
      apply writeLines_roundtrip
      · exact @goodLast_append [("# " ++ title), ""] (pySplitlines body)
          (goodLast_nonempty hg) hg
      · intro l hl
        rcases List.mem_cons.mp hl with h | h
        · subst h
          exact noLB_append "# " title (by decide) hnb
        · rcases List.mem_cons.mp h with h | h
          · subst h
            decide
          · exact pySplitlines_noLB body l h

/-- C4 witness: creating `"T"` with body `"b"` on a fresh path stores
exactly `# T`, a blank line, `b`; on an existing path it fails with the
already-exists error. -/
theorem c4_create_amended_witness :
    runOp (.create "T" "b") "p" (some "x\n") = .error ("note already exists: " ++ "p") ∧
    runOp (.create "T" "b") "p" none =
      .ok (writeLines (("# " ++ "T") :: "" :: pySplitlines "b")) ∧
    pySplitlines (writeLines (("# " ++ "T") :: "" :: pySplitlines "b")) =
      ("# " ++ "T") :: "" :: pySplitlines "b" :=
  ⟨(c4_create_amended "p" "T" "b" (some "x\n")).1 "x\n" rfl,
   ((c4_create_amended "p" "T" "b" none).2 rfl (by decide) (by decide) (by decide)).1,
   ((c4_create_amended "p" "T" "b" none).2 rfl (by decide) (by decide) (by decide)).2
     (by decide)⟩


/-- C5: applying `note.append(position=bottom)` twice in succession to
the same document never drops the first appended content.  For a
document whose stored lines end in a clean line (non-blank, no trailing
whitespace — every non-empty document the adapter itself wrote is of
this shape) and bodies whose line lists end cleanly: each call computes
the existing lines, one blank separator, the new body lines and a
trailing blank as the sequence handed to the write step, and the final
stored document holds both bodies in submission order, each preceded by
exactly one blank separator line (the trailing blank after the last
body is removed by the write normalisation). -/
theorem c5_double_append (c0 b1 b2 p1 p2 : String)
    (h0 : goodLast (pySplitlines c0))
    (h1 : goodLast (pySplitlines b1))
    (h2 : goodLast (pySplitlines b2)) :
    ∃ c1 c2,
      contentOp (.append b1 "bottom" none) p1 (some c0) =
        .ok ((pySplitlines c0 ++ [""]) ++ (pySplitlines b1 ++ [""])) ∧
      runOp (.append b1 "bottom" none) p1 (some c0) = .ok c1 ∧
      pySplitlines c1 = (pySplitlines c0 ++ [""]) ++ pySplitlines b1 ∧
      contentOp (.append b2 "bottom" none) p2 (some c1) =
        .ok ((((pySplitlines c0 ++ [""]) ++ pySplitlines b1) ++ [""]) ++
          (pySplitlines b2 ++ [""])) ∧
      runOp (.append b2 "bottom" none) p2 (some c1) = .ok c2 ∧
      pySplitlines c2 =
        (((pySplitlines c0 ++ [""]) ++ pySplitlines b1) ++ [""]) ++ pySplitlines b2 := by
  have hrd0 : readLines (some c0) = pySplitlines c0 := rfl
  have hco1 : contentOp (.append b1 "bottom" none) p1 (some c0) =
      .ok ((pySplitlines c0 ++ [""]) ++ (pySplitlines b1 ++ [""])) :=
    noteAppendLines_bottom_eq b1 (some c0) (pySplitlines c0) hrd0
      (goodLast_nonempty h0) (goodLast_getLast?_ne h0)
  have hrun1 := runOp_of_contentOp _ _ _ _ hco1
  have hg1 : goodLast ((pySplitlines c0 ++ [""]) ++ pySplitlines b1) :=
    goodLast_append (goodLast_nonempty h1) h1
  have hnb1 : ∀ l ∈ (pySplitlines c0 ++ [""]) ++ pySplitlines b1, noLB l = true := by
    intro l hl
    rcases List.mem_append.mp hl with hm | hm
    · rcases List.mem_append.mp hm with hm2 | hm2
      · exact pySplitlines_noLB c0 l hm2
      · rw [List.mem_singleton.mp hm2]
        decide
    · exact pySplitlines_noLB b1 l hm
  have hsp1 : pySplitlines (writeLines ((pySplitlines c0 ++ [""]) ++ (pySplitlines b1 ++ [""]))) =
      (pySplitlines c0 ++ [""]) ++ pySplitlines b1 := by
    rw [show (pySplitlines c0 ++ [""]) ++ (pySplitlines b1 ++ [""]) =
        ((pySplitlines c0 ++ [""]) ++ pySplitlines b1) ++ [""] from by simp,
      writeLines_append_blank]
    exact writeLines_roundtrip _ hg1 hnb1
  have hne1 : (pySplitlines c0 ++ [""]) ++ pySplitlines b1 ≠ [] := fun hc =>
    goodLast_nonempty h1 (List.append_eq_nil.mp hc).2
  have hlast1 : ((pySplitlines c0 ++ [""]) ++ pySplitlines b1).getLast? ≠ some "" := by
    rw [getLast?_append_right _ _ (goodLast_nonempty h1)]
    exact goodLast_getLast?_ne h1
  have hco2 : contentOp (.append b2 "bottom" none) p2
      (some (writeLines ((pySplitlines c0 ++ [""]) ++ (pySplitlines b1 ++ [""])))) =
      .ok ((((pySplitlines c0 ++ [""]) ++ pySplitlines b1) ++ [""]) ++
        (pySplitlines b2 ++ [""])) :=
    noteAppendLines_bottom_eq b2 _ _ hsp1 hne1 hlast1
  have hrun2 := runOp_of_contentOp _ _ _ _ hco2
  have hg2 : goodLast ((((pySplitlines c0 ++ [""]) ++ pySplitlines b1) ++ [""]) ++
      pySplitlines b2) :=
    @goodLast_append (((pySplitlines c0 ++ [""]) ++ pySplitlines b1) ++ [""])
      (pySplitlines b2) (goodLast_nonempty h2) h2
  have hnb2 : ∀ l ∈ (((pySplitlines c0 ++ [""]) ++ pySplitlines b1) ++ [""]) ++
      pySplitlines b2, noLB l = true := by
    intro l hl
    rcases List.mem_append.mp hl with hm | hm
    · rcases List.mem_append.mp hm with hm2 | hm2
      · exact hnb1 l hm2
      · rw [List.mem_singleton.mp hm2]
        decide
    · exact pySplitlines_noLB b2 l hm
  have hsp2 : pySplitlines (writeLines ((((pySplitlines c0 ++ [""]) ++ pySplitlines b1) ++ [""]) ++
      (pySplitlines b2 ++ [""]))) =
      (((pySplitlines c0 ++ [""]) ++ pySplitlines b1) ++ [""]) ++ pySplitlines b2 := by
    rw [show (((pySplitlines c0 ++ [""]) ++ pySplitlines b1) ++ [""]) ++
        (pySplitlines b2 ++ [""]) =
        ((((pySplitlines c0 ++ [""]) ++ pySplitlines b1) ++ [""]) ++ pySplitlines b2) ++ [""]
        from by simp,
      writeLines_append_blank]
    exact writeLines_roundtrip _ hg2 hnb2
  exact ⟨_, _, hco1, hrun1, hsp1, hco2, hrun2, hsp2⟩

/-- C5 witness: appending `"a"` then `"b"` at the bottom of the
document `"x"`. -/
theorem c5_double_append_witness :
    ∃ c1 c2,
      contentOp (.append "a" "bottom" none) "p" (some "x") =
        .ok ((pySplitlines "x" ++ [""]) ++ (pySplitlines "a" ++ [""])) ∧
      runOp (.append "a" "bottom" none) "p" (some "x") = .ok c1 ∧
      pySplitlines c1 = (pySplitlines "x" ++ [""]) ++ pySplitlines "a" ∧
      contentOp (.append "b" "bottom" none) "q" (some c1) =
        .ok ((((pySplitlines "x" ++ [""]) ++ pySplitlines "a") ++ [""]) ++
          (pySplitlines "b" ++ [""])) ∧
      runOp (.append "b" "bottom" none) "q" (some c1) = .ok c2 ∧
      pySplitlines c2 =
        (((pySplitlines "x" ++ [""]) ++ pySplitlines "a") ++ [""]) ++ pySplitlines "b" :=
  c5_double_append "x" "a" "b" "p" "q" (by decide) (by decide) (by decide)


/-- C7 counterexample: on the document `"- [x] a"` (which already holds
a done-form line for the text `"a"`), `task.create` adds `- [ ] a`;
`task.toggle(done)` flips that created line; but `task.toggle(open)`
then flips the FIRST line whose stripped form is `- [x] a` — the
pre-existing first line — so the document does not return to its
post-create state: the original line is not the one restored. -/
theorem c7_task_roundtrip_cex :
    runOp (.taskCreate "a" none none) "p" (some "- [x] a") =
      .ok "- [x] a\n\n- [ ] a\n" ∧
    runOp (.taskToggle "done" (some "a")) "p" (some "- [x] a\n\n- [ ] a\n") =
      .ok "- [x] a\n\n- [x] a\n" ∧
    runOp (.taskToggle "open" (some "a")) "p" (some "- [x] a\n\n- [x] a\n") =
      .ok "- [ ] a\n\n- [x] a\n" ∧
    ("- [ ] a\n\n- [x] a\n" : String) ≠ "- [x] a\n\n- [ ] a\n" := by decide

/-- C7 (amended): for a task text `T` that is non-empty, newline-free
and without trailing whitespace, and a document none of whose lines
strips to the open form `- [ ] T` or the done form `- [x] T`:
`task.create` appends the line `- [ ] T` (after a blank separator when
the document is non-empty and does not already end blank);
`task.toggle(done, T)` then changes exactly that line to `- [x] T` and
no other line; and `task.toggle(open, T)` afterwards restores the
post-create document exactly.  (Without the no-pre-existing-match
condition the toggles may flip an earlier matching line instead, as
the counterexample shows.) -/
theorem c7_task_roundtrip_amended (c0 T p1 p2 p3 : String)
    (hT1 : pyRstrip T = T) (hT2 : T ≠ "") (hTn : noLB T = true)
    (h0 : ∀ l ∈ pySplitlines c0,
      pyStrip l ≠ "- [ ] " ++ T ∧ pyStrip l ≠ "- [x] " ++ T) :
    ∃ c1 c2,
      runOp (.taskCreate T none none) p1 (some c0) = .ok c1 ∧
      pySplitlines c1 =
        (pySplitlines c0 ++
          (if pySplitlines c0 ≠ [] ∧ (pySplitlines c0).getLast? ≠ some "" then [""]
           else [])) ++ ["- [ ] " ++ T] ∧
      runOp (.taskToggle "done" (some T)) p2 (some c1) = .ok c2 ∧
      pySplitlines c2 =
        (pySplitlines c0 ++
          (if pySplitlines c0 ≠ [] ∧ (pySplitlines c0).getLast? ≠ some "" then [""]
           else [])) ++ ["- [x] " ++ T] ∧
      runOp (.taskToggle "open" (some T)) p3 (some c2) = .ok c1 := by
  have hopne : "- [ ] " ++ T ≠ "" := append_ne_empty_left "- [ ] " T (by decide)
  have hdone : "- [x] " ++ T ≠ "" := append_ne_empty_left "- [x] " T (by decide)
  have hopnR : pyRstrip ("- [ ] " ++ T) = "- [ ] " ++ T :=
    pyRstrip_append_stable "- [ ] " T hT1 hT2
  have hdonR : pyRstrip ("- [x] " ++ T) = "- [x] " ++ T :=
    pyRstrip_append_stable "- [x] " T hT1 hT2
  have hopnL : pyLstrip ("- [ ] " ++ T) = "- [ ] " ++ T := by
    refine pyLstrip_cons_stable _ '-' ([' ', '[', ' ', ']', ' '] ++ T.data) ?_ (by decide)
    rw [string_data_append]
    rfl
  have hdonL : pyLstrip ("- [x] " ++ T) = "- [x] " ++ T := by
    refine pyLstrip_cons_stable _ '-' ([' ', '[', 'x', ']', ' '] ++ T.data) ?_ (by decide)
    rw [string_data_append]
    rfl
  have hopnS : pyStrip ("- [ ] " ++ T) = "- [ ] " ++ T := by
    unfold pyStrip
    rw [hopnR, hopnL]
  have hdonS : pyStrip ("- [x] " ++ T) = "- [x] " ++ T := by
    unfold pyStrip
    rw [hdonR, hdonL]
  obtain ⟨A, hA⟩ : ∃ A,
      (if pySplitlines c0 ≠ [] ∧ (pySplitlines c0).getLast? ≠ some "" then
        pySplitlines c0 ++ [""] else pySplitlines c0) = A := ⟨_, rfl⟩
  have hA2 : (pySplitlines c0 ++
      (if pySplitlines c0 ≠ [] ∧ (pySplitlines c0).getLast? ≠ some "" then [""]
       else [])) = A := by
    rw [← hA]
    split
    · rfl
    · simp
  have hmem : ∀ l ∈ A, pyStrip l ≠ "- [ ] " ++ T ∧ pyStrip l ≠ "- [x] " ++ T := by
    rw [← hA]
    split
    · intro l hl
      rcases List.mem_append.mp hl with hm | hm
      · exact h0 l hm
      · rw [List.mem_singleton.mp hm]
        exact ⟨fun hc => hopne (by simpa using hc.symm),
               fun hc => hdone (by simpa using hc.symm)⟩
    · exact h0
  have hnbA : ∀ l ∈ A, noLB l = true := by
    rw [← hA]
    split
    · intro l hl
      rcases List.mem_append.mp hl with hm | hm
      · exact pySplitlines_noLB c0 l hm
      · rw [List.mem_singleton.mp hm]
        decide
    · exact pySplitlines_noLB c0
  have hnbOpn : noLB ("- [ ] " ++ T) = true := noLB_append "- [ ] " T (by decide) hTn
  have hnbDon : noLB ("- [x] " ++ T) = true := noLB_append "- [x] " T (by decide) hTn
  -- task.create
  have hco1 : contentOp (.taskCreate T none none) p1 (some c0) =
      .ok (A ++ ["- [ ] " ++ T]) := by
    have := taskCreateLines_eq T (some c0) (pySplitlines c0) rfl
    rw [hA] at this
    exact this
  have hrun1 := runOp_of_contentOp _ _ _ _ hco1
  have hg1 : goodLast (A ++ ["- [ ] " ++ T]) :=
    goodLast_append (by simp) (goodLast_singleton hopne hopnR)
  have hnb1 : ∀ l ∈ A ++ ["- [ ] " ++ T], noLB l = true := by
    intro l hl
    rcases List.mem_append.mp hl with hm | hm
    · exact hnbA l hm
    · rw [List.mem_singleton.mp hm]
      exact hnbOpn
  have hsp1 : pySplitlines (writeLines (A ++ ["- [ ] " ++ T])) =
      A ++ ["- [ ] " ++ T] := writeLines_roundtrip _ hg1 hnb1
  -- task.toggle done
  have hfind1 := toggleFindAux_last_open ("- [ ] " ++ T) ("- [x] " ++ T) A
    (fun l hl => (hmem l hl).1) hopnS
  have htog1 : taskToggleLines "done" (some T)
      (some (writeLines (A ++ ["- [ ] " ++ T]))) =
      .ok ((A ++ ["- [ ] " ++ T]).set A.length ("- [x] " ++ T)) :=
    taskToggleLines_eq "done" T _ hT2 _
      (show readLines (some (writeLines (A ++ ["- [ ] " ++ T]))) = A ++ ["- [ ] " ++ T]
        from hsp1)
      (by simp) A.length ("- [x] " ++ T) hfind1
  rw [set_append_len A ("- [ ] " ++ T) ("- [x] " ++ T) []] at htog1
  have hco2 : contentOp (.taskToggle "done" (some T))
      p2 (some (writeLines (A ++ ["- [ ] " ++ T]))) =
      .ok (A ++ ["- [x] " ++ T]) := htog1
  have hrun2 := runOp_of_contentOp _ _ _ _ hco2
  have hg2 : goodLast (A ++ ["- [x] " ++ T]) :=
    goodLast_append (by simp) (goodLast_singleton hdone hdonR)
  have hnb2 : ∀ l ∈ A ++ ["- [x] " ++ T], noLB l = true := by
    intro l hl
    rcases List.mem_append.mp hl with hm | hm
    · exact hnbA l hm
    · rw [List.mem_singleton.mp hm]
      exact hnbDon
  have hsp2 : pySplitlines (writeLines (A ++ ["- [x] " ++ T])) =
      A ++ ["- [x] " ++ T] := writeLines_roundtrip _ hg2 hnb2
  -- task.toggle open
  have hfind2 := toggleFindAux_last_done ("- [ ] " ++ T) ("- [x] " ++ T) A
    (fun l hl => (hmem l hl).2) hdonS
  have htog2 : taskToggleLines "open" (some T)
      (some (writeLines (A ++ ["- [x] " ++ T]))) =
      .ok ((A ++ ["- [x] " ++ T]).set A.length ("- [ ] " ++ T)) :=
    taskToggleLines_eq "open" T _ hT2 _
      (show readLines (some (writeLines (A ++ ["- [x] " ++ T]))) = A ++ ["- [x] " ++ T]
        from hsp2)
      (by simp) A.length ("- [ ] " ++ T) hfind2
  rw [set_append_len A ("- [x] " ++ T) ("- [ ] " ++ T) []] at htog2
  have hco3 : contentOp (.taskToggle "open" (some T))
      p3 (some (writeLines (A ++ ["- [x] " ++ T]))) =
      .ok (A ++ ["- [ ] " ++ T]) := htog2
  have hrun3 := runOp_of_contentOp _ _ _ _ hco3
  refine ⟨writeLines (A ++ ["- [ ] " ++ T]), writeLines (A ++ ["- [x] " ++ T]),
    hrun1, ?_, hrun2, ?_, hrun3⟩
  · rw [hA2]
    exact hsp1
  · rw [hA2]
    exact hsp2

/-- C7 witness: creating and double-toggling the task `"a"` on the
clean document `"x"`. -/
theorem c7_task_roundtrip_witness :
    ∃ c1 c2,
      runOp (.taskCreate "a" none none) "p" (some "x") = .ok c1 ∧
      pySplitlines c1 =
        (pySplitlines "x" ++
          (if pySplitlines "x" ≠ [] ∧ (pySplitlines "x").getLast? ≠ some "" then [""]
           else [])) ++ ["- [ ] " ++ "a"] ∧
      runOp (.taskToggle "done" (some "a")) "q" (some c1) = .ok c2 ∧
      pySplitlines c2 =
        (pySplitlines "x" ++
          (if pySplitlines "x" ≠ [] ∧ (pySplitlines "x").getLast? ≠ some "" then [""]
           else [])) ++ ["- [x] " ++ "a"] ∧
      runOp (.taskToggle "open" (some "a")) "r" (some c2) = .ok c1 :=
  c7_task_roundtrip_amended "x" "a" "p" "q" "r" (by decide) (by decide) (by decide)
    (by decide)


/-!  Helper lemmas for the after-heading branch of `note_append`. -/

end Jarvis
